import Mathlib

/-!
# Verification of the Metadata & Artwork Resolution Engine

A shallow embedding, in Lean 4, of the core subsystem of the
`side-a-vinyl-collector` repository (TypeScript backend), together with
theorems settling the specification claims about it.

Conventions used throughout:

* Times are natural numbers of milliseconds.
* JavaScript strings are modelled by `String`; where the source lowercases or
  filters characters we work on the underlying character list (`String.data`),
  which in this Lean version is the definitional content of a string.
  The inputs of interest are ASCII, for which `Char.toLower` agrees with
  JavaScript `toLowerCase`.
* A `Buffer` is a `List Nat` of byte values.
* Fallible asynchronous calls are modelled by `Except` values: the outcome a
  provider call would have is passed in as an argument, and the embedded
  function describes what the source does with that outcome.
* Databases and file storage are explicit functional states; SQL
  `BEGIN`/`COMMIT`/`ROLLBACK` is modelled by returning either the updated or
  the original state.
-/

/-! ## String helpers shared by the controllers -/

/-- JavaScript `toLowerCase` on the character list of a string (ASCII). -/
def lowerChars (s : String) : List Char :=
  s.data.map Char.toLower

/-- Character class `[a-z0-9]` used by the normalization rule. -/
def isLowerAlnum (c : Char) : Bool :=
  (decide (Char.ofNat 97 ≤ c) && decide (c ≤ Char.ofNat 122)) ||
  (decide (Char.ofNat 48 ≤ c) && decide (c ≤ Char.ofNat 57))

namespace SearchController

/-- `searchController.ts`: `str.toLowerCase().replace(/[^a-z0-9]/g, '')`.
We keep the result as a character list. -/
def normalize (s : String) : List Char :=
  (lowerChars s).filter isLowerAlnum

end SearchController

/-- Does `hay` start with `needle`? (helper for substring search) -/
def startsWithChars : List Char → List Char → Bool
  | [], _ => true
  | _ :: _, [] => false
  | a :: as, b :: bs => a == b && startsWithChars as bs

/-- JavaScript `String.prototype.includes(needle)` on character lists. -/
def hasSubstr (needle : List Char) : List Char → Bool
  | [] => needle.isEmpty
  | c :: rest => startsWithChars needle (c :: rest) || hasSubstr needle rest

/-- Lower-case hexadecimal alphabet membership (used to state the shape
of the generated cover-art filenames). -/
def isHexLower (c : Char) : Bool :=
  "0123456789abcdef".data.contains c

/-! ## `utils/rateLimit.ts` — the per-provider request throttle

The `RateLimiter` keeps a FIFO queue.  `processQueue` runs tasks one at a
time; after a task finishes it sleeps `minInterval` milliseconds *only when
the queue is still non-empty*, then starts the next task.  When the queue
drains, `processing` is reset and a later `execute` starts its task
immediately.

We model a submission history as a list of `ThrottleTask`s ordered by
submission (FIFO order), each with its arrival time and run duration, and
compute the start time of every task.  The recursion mirrors the worker
loop: given the end time `e` of the previous task, the next task starts at
`e + minInterval` if it was already queued when the previous task finished
(`arrival ≤ e`), and at its own arrival time otherwise (the queue had
drained to idle and `execute` restarted the loop at once). -/

namespace RateLimiter

/-- Constructor: `minInterval = (60 * 1000) / requestsPerMinute`
(exact whenever `requestsPerMinute` divides 60000, e.g. the 60 req/min
used for both providers in this repository). -/
def minInterval (requestsPerMinute : Nat) : Nat :=
  60 * 1000 / requestsPerMinute

/-- One task submitted through `execute()`: when it was submitted and how
long it runs once started. -/
structure ThrottleTask where
  arrival : Nat
  duration : Nat
deriving DecidableEq, Repr

/-- Start times of the tasks, given the end time of the previously executed
task (`none` before any task has run). -/
def startTimesFrom (minI : Nat) : Option Nat → List ThrottleTask → List Nat
  | _, [] => []
  | none, t :: rest => t.arrival :: startTimesFrom minI (some (t.arrival + t.duration)) rest
  | some e, t :: rest =>
      let s := if t.arrival ≤ e then e + minI else t.arrival
      s :: startTimesFrom minI (some (s + t.duration)) rest

/-- Start times of an entire submission history (initially idle queue). -/
def startTimes (minI : Nat) (tasks : List ThrottleTask) : List Nat :=
  startTimesFrom minI none tasks

/-- The gap property claimed in the specification: every pair of
consecutive start times is at least `minI` apart. -/
def gapsAtLeast (minI : Nat) : List Nat → Bool
  | a :: b :: rest => decide (a + minI ≤ b) && gapsAtLeast minI (b :: rest)
  | _ => true

/-- Relation holding between consecutive (task, start-time) pairs of an
execution: either the guaranteed throttle gap, or the later task arrived
only after the earlier had finished (the queue had drained to idle) and
started exactly at its arrival time. -/
def spacedOrIdle (minI : Nat) : ThrottleTask × Nat → ThrottleTask × Nat → Prop
  | (t₁, s₁), (t₂, s₂) =>
      s₁ + minI ≤ s₂ ∨ (s₁ + t₁.duration < t₂.arrival ∧ s₂ = t₂.arrival)

end RateLimiter

/-! ## `services/vision.ts` — the vision resolution protocol

`extractAlbumInfo` first runs the primary provider on the (compressed)
image.  If the parsed confidence is truthy and at least `minConfidence`,
the primary result is returned at once.  Otherwise, when a fallback
provider is configured, the fallback is run on the same image, the two
confidences are compared, and whichever result wins is returned with the
loser attached in the `primaryResult` field; `usedFallback` is set to
`true` only on the fallback's own result object.  When the primary call
throws, a configured fallback is tried and becomes the sole result.

We embed the decision procedure as a pure function of the two provider
outcomes.  The second component of the result counts how many times the
fallback provider was invoked; the image pre-compression step is outside
the decision protocol and not modelled. -/

namespace VisionService

/-- Structured answer parsed from one provider call, after
`extracted.confidence || 0` (so `confidence` is always a number;
`0` also encodes an omitted confidence). -/
structure RawVision where
  artist : Option String
  album : Option String
  year : Option Nat
  confidence : Nat
deriving DecidableEq, Repr

/-- The comparison record attached to the winner (the `primaryResult`
field of the source — despite its name it holds whichever result did not
win, or, when the fallback wins, the primary result). -/
structure AltVision where
  artist : Option String
  album : Option String
  year : Option Nat
  confidence : Nat
  provider : String
deriving DecidableEq, Repr

/-- `VisionExtractionResult` as returned by `extractAlbumInfo`. -/
structure VisionOut where
  artist : Option String
  album : Option String
  year : Option Nat
  confidence : Nat
  provider : String
  usedFallback : Bool
  alternate : Option AltVision
deriving DecidableEq, Repr

/-- Tag a raw provider answer with provider name and fallback flag. -/
def rawToOut (p : String) (r : RawVision) (fb : Bool) (alt : Option AltVision) : VisionOut :=
  { artist := r.artist, album := r.album, year := r.year,
    confidence := r.confidence, provider := p, usedFallback := fb, alternate := alt }

/-- Project a result into the attached-comparison record. -/
def outToAlt (o : VisionOut) : AltVision :=
  { artist := o.artist, album := o.album, year := o.year,
    confidence := o.confidence, provider := o.provider }

/-- Attach a raw answer as the comparison record. -/
def rawToAlt (p : String) (r : RawVision) : AltVision :=
  { artist := r.artist, album := r.album, year := r.year,
    confidence := r.confidence, provider := p }

/-- Constructor logic for the confidence threshold:
`parseInt(process.env.VISION_MIN_CONFIDENCE || '90')`, reset to the
default 90 when outside `0..100`.  `none` models an unset variable. -/
def minConfidenceOf (envVal : Option Nat) : Nat :=
  match envVal with
  | none => 90
  | some v => if v ≤ 100 then v else 90

/-- `VisionService.extractAlbumInfo`, as a function of the outcomes the two
providers would produce on the (compressed) image.  Returns the response
(or propagated error) and the number of fallback-provider invocations. -/
def extractAlbumInfo (minConfidence : Nat) (primaryName : String)
    (fallbackProvider : Option String)
    (primaryRun : Except Unit RawVision) (fallbackRun : Except Unit RawVision) :
    Except Unit VisionOut × Nat :=
  match primaryRun with
  | .ok raw =>
      let result := rawToOut primaryName raw false none
      if 0 < raw.confidence ∧ minConfidence ≤ raw.confidence then
        (.ok result, 0)
      else
        match fallbackProvider with
        | some fbName =>
            match fallbackRun with
            | .ok fraw =>
                let fallbackResult := rawToOut fbName fraw true (some (outToAlt result))
                if 0 < fraw.confidence ∧ raw.confidence < fraw.confidence then
                  (.ok fallbackResult, 1)
                else
                  (.ok { result with alternate := some (rawToAlt fbName fraw) }, 1)
            | .error _ =>
                match fallbackRun with
                | .ok fraw => (.ok (rawToOut fbName fraw true none), 2)
                | .error e => (.error e, 2)
        | none => (.ok result, 0)
  | .error e =>
      match fallbackProvider with
      | some fbName =>
          match fallbackRun with
          | .ok fraw => (.ok (rawToOut fbName fraw true none), 1)
          | .error e2 => (.error e2, 1)
      | none => (.error e, 0)

end VisionService

/-! ## MD5 (RFC 1321), used by `services/storage.ts` via
`crypto.createHash('md5')`

A byte-level executable implementation over `List Nat`; words are natural
numbers reduced modulo `2^32`. -/

namespace MD5

/-- `2^32`, the word modulus. -/
def M32 : Nat := 4294967296

/-- Per-round left-rotation amounts. -/
def shiftTable : List Nat :=
  [7, 12, 17, 22, 7, 12, 17, 22, 7, 12, 17, 22, 7, 12, 17, 22,
   5, 9, 14, 20, 5, 9, 14, 20, 5, 9, 14, 20, 5, 9, 14, 20,
   4, 11, 16, 23, 4, 11, 16, 23, 4, 11, 16, 23, 4, 11, 16, 23,
   6, 10, 15, 21, 6, 10, 15, 21, 6, 10, 15, 21, 6, 10, 15, 21]

/-- Per-round additive constants `floor(abs(sin(i+1)) * 2^32)`. -/
def sineTable : List Nat :=
  [0xd76aa478, 0xe8c7b756, 0x242070db, 0xc1bdceee,
   0xf57c0faf, 0x4787c62a, 0xa8304613, 0xfd469501,
   0x698098d8, 0x8b44f7af, 0xffff5bb1, 0x895cd7be,
   0x6b901122, 0xfd987193, 0xa679438e, 0x49b40821,
   0xf61e2562, 0xc040b340, 0x265e5a51, 0xe9b6c7aa,
   0xd62f105d, 0x02441453, 0xd8a1e681, 0xe7d3fbc8,
   0x21e1cde6, 0xc33707d6, 0xf4d50d87, 0x455a14ed,
   0xa9e3e905, 0xfcefa3f8, 0x676f02d9, 0x8d2a4c8a,
   0xfffa3942, 0x8771f681, 0x6d9d6122, 0xfde5380c,
   0xa4beea44, 0x4bdecfa9, 0xf6bb4b60, 0xbebfbc70,
   0x289b7ec6, 0xeaa127fa, 0xd4ef3085, 0x04881d05,
   0xd9d4d039, 0xe6db99e5, 0x1fa27cf8, 0xc4ac5665,
   0xf4292244, 0x432aff97, 0xab9423a7, 0xfc93a039,
   0x655b59c3, 0x8f0ccc92, 0xffeff47d, 0x85845dd1,
   0x6fa87e4f, 0xfe2ce6e0, 0xa3014314, 0x4e0811a1,
   0xf7537e82, 0xbd3af235, 0x2ad7d2bb, 0xeb86d391]

/-- Bitwise complement on a 32-bit word. -/
def not32 (x : Nat) : Nat := Nat.xor x 4294967295

/-- Left rotation of a 32-bit word (valid for `0 < n < 32`, `x < 2^32`). -/
def rotl32 (x n : Nat) : Nat :=
  (x % 2 ^ (32 - n)) * 2 ^ n + x / 2 ^ (32 - n)

/-- RFC 1321 padding: append `0x80`, zero-fill to 56 mod 64, then the
original bit length as 8 little-endian bytes. -/
def padBytes (msg : List Nat) : List Nat :=
  let len := msg.length
  let zeros := (119 - len % 64) % 64
  let bitLen := len * 8 % 2 ^ 64
  msg ++ 0x80 :: List.replicate zeros 0 ++
    ((List.range 8).map fun i => bitLen / 2 ^ (8 * i) % 256)

/-- Accumulate bytes into successive 64-byte chunks (structural helper). -/
def toChunksGo (acc : List Nat) : List Nat → List (List Nat)
  | [] => if acc.isEmpty then [] else [acc]
  | b :: rest =>
      if (acc ++ [b]).length = 64 then (acc ++ [b]) :: toChunksGo [] rest
      else toChunksGo (acc ++ [b]) rest

/-- Split a padded message into 64-byte chunks. -/
def toChunks (l : List Nat) : List (List Nat) :=
  toChunksGo [] l

/-- Little-endian 32-bit word `g` of a 64-byte chunk. -/
def wordAt (chunk : List Nat) (g : Nat) : Nat :=
  chunk.getD (4 * g) 0 + 256 * chunk.getD (4 * g + 1) 0 +
    65536 * chunk.getD (4 * g + 2) 0 + 16777216 * chunk.getD (4 * g + 3) 0

/-- One of the 64 rounds on the working state `(A, B, C, D)`. -/
def roundStep (chunk : List Nat) (st : Nat × Nat × Nat × Nat) (i : Nat) :
    Nat × Nat × Nat × Nat :=
  let A := st.1
  let B := st.2.1
  let C := st.2.2.1
  let D := st.2.2.2
  let fg : Nat × Nat :=
    if i < 16 then (Nat.lor (Nat.land B C) (Nat.land (not32 B) D), i)
    else if i < 32 then (Nat.lor (Nat.land D B) (Nat.land (not32 D) C), (5 * i + 1) % 16)
    else if i < 48 then (Nat.xor (Nat.xor B C) D, (3 * i + 5) % 16)
    else (Nat.xor C (Nat.lor B (not32 D)), 7 * i % 16)
  let x := (fg.1 + A + sineTable.getD i 0 + wordAt chunk fg.2) % M32
  (D, (B + rotl32 x (shiftTable.getD i 0)) % M32, B, C)

/-- Process one 64-byte chunk into the running digest state. -/
def processChunk (st : Nat × Nat × Nat × Nat) (chunk : List Nat) :
    Nat × Nat × Nat × Nat :=
  let r := (List.range 64).foldl (roundStep chunk) st
  ((st.1 + r.1) % M32, (st.2.1 + r.2.1) % M32,
   (st.2.2.1 + r.2.2.1) % M32, (st.2.2.2 + r.2.2.2) % M32)

/-- Lower-case hexadecimal digit. -/
def hexDigit (n : Nat) : Char :=
  if n < 10 then Char.ofNat (48 + n) else Char.ofNat (87 + n)

/-- Two hex digits of one byte. -/
def byteHex (b : Nat) : List Char := [hexDigit (b / 16), hexDigit (b % 16)]

/-- Hex rendering of a 32-bit word, least significant byte first. -/
def wordLEHex (w : Nat) : List Char :=
  ((List.range 4).map fun i => byteHex (w / 2 ^ (8 * i) % 256)).flatten

/-- The MD5 hex digest of a byte list, as a character list. -/
def md5hexChars (msg : List Nat) : List Char :=
  let st := (toChunks (padBytes msg)).foldl processChunk
    (0x67452301, 0xefcdab89, 0x98badcfe, 0x10325476)
  wordLEHex st.1 ++ wordLEHex st.2.1 ++ wordLEHex st.2.2.1 ++ wordLEHex st.2.2.2

end MD5

/-! ## `services/storage.ts` — local cover-art storage -/

namespace StorageService

/-- The storage directory as a map from filename to file bytes;
`fs.writeFile` overwrites an existing file of the same name. -/
def writeFile : List (String × List Nat) → String → List Nat → List (String × List Nat)
  | [], fn, bytes => [(fn, bytes)]
  | (fn₀, b₀) :: rest, fn, bytes =>
      if fn₀ = fn then (fn₀, bytes) :: rest
      else (fn₀, b₀) :: writeFile rest fn bytes

/-- `fs.access`-style existence check used by `exists()`. -/
def fileExists (files : List (String × List Nat)) (fn : String) : Bool :=
  files.any fun p => p.1 == fn

/-- `readCoverArt`: read a file's bytes (empty if absent). -/
def readCoverArt (files : List (String × List Nat)) (fn : String) : List Nat :=
  match files.find? fun p => p.1 == fn with
  | some p => p.2
  | none => []

/-- `detectImageFormat`: magic-byte sniffing, defaulting to `jpg`. -/
def detectImageFormat (buffer : List Nat) : String :=
  if buffer.getD 0 256 = 0xFF ∧ buffer.getD 1 256 = 0xD8 ∧ buffer.getD 2 256 = 0xFF then "jpg"
  else if buffer.getD 0 256 = 0x89 ∧ buffer.getD 1 256 = 0x50 ∧ buffer.getD 2 256 = 0x4E ∧
      buffer.getD 3 256 = 0x47 then "png"
  else if buffer.getD 0 256 = 0x47 ∧ buffer.getD 1 256 = 0x49 ∧ buffer.getD 2 256 = 0x46 then "gif"
  else if buffer.getD 0 256 = 0x52 ∧ buffer.getD 1 256 = 0x49 ∧ buffer.getD 2 256 = 0x46 ∧
      buffer.getD 3 256 = 0x46 then "webp"
  else "jpg"

/-- The filename `saveCoverArt` generates:
`{albumId}_{first 8 hex chars of md5(buffer)}.{detected extension}`. -/
def coverFileName (buffer : List Nat) (albumId : Nat) : String :=
  String.mk ((toString albumId).data ++ '_' :: (MD5.md5hexChars buffer).take 8 ++
    '.' :: (detectImageFormat buffer).data)

/-- `saveCoverArt`: write the image under its generated filename and
return the filename (the value stored in the database). -/
def saveCoverArt (files : List (String × List Nat)) (buffer : List Nat) (albumId : Nat) :
    List (String × List Nat) × String :=
  let fn := coverFileName buffer albumId
  (writeFile files fn buffer, fn)

/-- `path.extname`: the last dot of the name onward (empty if no dot). -/
def extnameChars (l : List Char) : List Char :=
  match l with
  | [] => []
  | c :: rest =>
      let tail := extnameChars rest
      if tail.isEmpty then
        if c = '.' then '.' :: rest else []
      else tail

/-- `getMimeType`: extension-to-MIME table with an octet-stream default. -/
def getMimeType (filename : String) : String :=
  let ext := String.mk (extnameChars (lowerChars filename))
  if ext = ".jpg" then "image/jpeg"
  else if ext = ".jpeg" then "image/jpeg"
  else if ext = ".png" then "image/png"
  else if ext = ".gif" then "image/gif"
  else if ext = ".webp" then "image/webp"
  else "application/octet-stream"

end StorageService

/-! ## Relational store model (`db/schema.sql`)

`artists(id, name)`, `albums(id, artist_id, title, year, cover_image_url,
discogs_id, local_cover_path, cover_art_fetched, UNIQUE(artist_id, title))`,
`collections(album_id UNIQUE)`, `barcodes(barcode UNIQUE, album_id)`.
`SERIAL` keys are modelled with explicit `next…Id` counters; rows appear in
insertion order, and SQL row lookups take the first matching row. -/

/-- JavaScript truthiness filter for an optional string
(`x || null`: `undefined` and the empty string become `NULL`). -/
def optStrTruthy : Option String → Option String
  | some s => if s.data.isEmpty then none else some s
  | none => none

/-- JavaScript truthiness filter for an optional number
(`x || null`: `undefined` and `0` become `NULL`). -/
def optNatTruthy : Option Nat → Option Nat
  | some 0 => none
  | some (n + 1) => some (n + 1)
  | none => none

/-- A row of `artists`. -/
structure ArtistRow where
  id : Nat
  name : String
deriving DecidableEq, Repr

/-- A row of `albums`. -/
structure AlbumRow where
  id : Nat
  artistId : Nat
  title : String
  year : Option Nat
  coverImageUrl : Option String
  discogsId : Option Nat
  localCoverPath : Option String
  coverArtFetched : Bool
deriving DecidableEq, Repr

/-- The relational store. -/
structure DB where
  artists : List ArtistRow
  albums : List AlbumRow
  collections : List Nat
  barcodes : List (String × Nat)
  nextArtistId : Nat
  nextAlbumId : Nat
deriving DecidableEq, Repr

/-- `SELECT id FROM artists WHERE LOWER(name) = LOWER($1)` (first row). -/
def findArtistIdByLowerName (rows : List ArtistRow) (name : String) : Option Nat :=
  (rows.find? fun r => lowerChars r.name == lowerChars name).map fun r => r.id

/-- `SELECT id FROM albums WHERE artist_id = $1 AND LOWER(title) = LOWER($2)`
(first row). -/
def findAlbumIdByLowerTitle (rows : List AlbumRow) (artistId : Nat) (title : String) :
    Option Nat :=
  (rows.find? fun r =>
    r.artistId == artistId && lowerChars r.title == lowerChars title).map fun r => r.id

/-- `UPDATE albums SET local_cover_path = $1, cover_art_fetched = TRUE
WHERE id = $2`. -/
def updateCoverRow (l : List AlbumRow) (aid : Nat) (fn : String) : List AlbumRow :=
  l.map fun r =>
    if r.id == aid then { r with localCoverPath := some fn, coverArtFetched := true } else r

/-! ## `controllers/albumController.ts` — `addAlbum` -/

namespace AlbumController

/-- The request body fields `addAlbum` reads. -/
structure AddInput where
  artist : String
  album : String
  year : Option Nat
  coverImageUrl : Option String
  discogsId : Option Nat
  barcode : Option String
deriving DecidableEq, Repr

/-- The observable response of `addAlbum`. -/
inductive AddResp where
  | created (albumId : Nat)
  | conflict
  | badRequest
deriving DecidableEq, Repr

/-- Step 1 of the `addAlbum` transaction: "Check if artist exists,
otherwise create".  Returns the resolved artist id and the store. -/
def resolveArtist (db : DB) (artist : String) : Nat × DB :=
  match findArtistIdByLowerName db.artists artist with
  | some i => (i, db)
  | none =>
      (db.nextArtistId,
        { db with
            artists := db.artists ++ [⟨db.nextArtistId, artist⟩],
            nextArtistId := db.nextArtistId + 1 })

/-- Step 2 of the `addAlbum` transaction: "Check if album exists,
otherwise create".  Returns the resolved album id and the store. -/
def resolveAlbum (db1 : DB) (artistId : Nat) (inp : AddInput) : Nat × DB :=
  match findAlbumIdByLowerTitle db1.albums artistId inp.album with
  | some i => (i, db1)
  | none =>
      (db1.nextAlbumId,
        { db1 with
            albums := db1.albums ++
              [⟨db1.nextAlbumId, artistId, inp.album, optNatTruthy inp.year,
                optStrTruthy inp.coverImageUrl, optNatTruthy inp.discogsId, none, false⟩],
            nextAlbumId := db1.nextAlbumId + 1 })

/-- Step 4 of the `addAlbum` transaction:
`INSERT INTO barcodes ... ON CONFLICT (barcode) DO NOTHING` (only when a
truthy barcode was supplied). -/
def insertBarcode (db3 : DB) (ob : Option String) (albumId : Nat) : DB :=
  match ob with
  | some bc =>
      if db3.barcodes.any fun p => p.1 == bc then db3
      else { db3 with barcodes := db3.barcodes ++ [(bc, albumId)] }
  | none => db3

/-- Step 3 of the `addAlbum` transaction:
`INSERT INTO collections (album_id)` — a `23505` unique violation becomes
the 409 `ConflictError` and the transaction is rolled back (the original
store `db` is returned); otherwise the barcode insert runs and the
transaction commits. -/
def mkMembership (db : DB) (step2 : Nat × DB) (ob : Option String) : AddResp × DB :=
  if step2.2.collections.contains step2.1 then (.conflict, db)
  else
    (.created step2.1,
      insertBarcode
        { step2.2 with collections := step2.2.collections ++ [step2.1] }
        ob step2.1)

/-- `addAlbum`: look up or create the artist (case-insensitive name
equality), look up or create the album (same artist, case-insensitive
title equality), insert the membership row (unique on album id; a
violation becomes the 409 `ConflictError` and rolls the transaction
back), optionally record the barcode, then commit.  Returns the response
and the post-transaction store (the input store on error, since the
transaction is rolled back). -/
def addAlbum (db : DB) (inp : AddInput) : AddResp × DB :=
  if inp.artist.data.isEmpty || inp.album.data.isEmpty then (.badRequest, db)
  else
    mkMembership db (resolveAlbum (resolveArtist db inp.artist).2
      (resolveArtist db inp.artist).1 inp) (optStrTruthy inp.barcode)

/-- The post-commit cover-art handling of the newer `addAlbum`
(`src/unnamed/part_008`), observable before the HTTP response returns. -/
structure AddCoverOutcome where
  resp : AddResp
  db : DB
  files : List (String × List Nat)
  mbSearchInvoked : Bool
  backgroundScheduled : Bool
deriving Repr

/-- `addAlbum` of `src/unnamed/part_008`: after the transaction commits,
if the open-metadata provider is disabled and the request carried a
truthy `coverImageUrl`, the image is downloaded and saved to local
storage and the row updated — all awaited before the response; otherwise
`fetchMusicBrainzCoverArt` is scheduled as an unawaited background task.
A failed synchronous download is caught and logged; the add still
succeeds.  `download` is the outcome `musicbrainzService.downloadCoverArt`
would produce for a URL. -/
def addAlbumWithCover (db : DB) (files : List (String × List Nat)) (mbEnabled : Bool)
    (inp : AddInput) (download : String → Except Unit (List Nat)) : AddCoverOutcome :=
  match addAlbum db inp with
  | (.created aid, db2) =>
      match mbEnabled, optStrTruthy inp.coverImageUrl with
      | false, some url =>
          match download url with
          | .ok buf =>
              let saved := StorageService.saveCoverArt files buf aid
              { resp := .created aid,
                db := { db2 with albums := updateCoverRow db2.albums aid saved.2 },
                files := saved.1,
                mbSearchInvoked := false, backgroundScheduled := false }
          | .error _ =>
              { resp := .created aid, db := db2, files := files,
                mbSearchInvoked := false, backgroundScheduled := false }
      | _, _ =>
          { resp := .created aid, db := db2, files := files,
            mbSearchInvoked := false, backgroundScheduled := true }
  | (r, db2) =>
      { resp := r, db := db2, files := files,
        mbSearchInvoked := false, backgroundScheduled := false }

end AlbumController

/-! ## `controllers/coverArtController.ts` — `getCoverArt` -/

namespace CoverArtController

/-- The observable response of the cover-art read path. -/
inductive CoverResp where
  | file (bytes : List Nat) (mime : String)
  | redirect (url : String)
  | albumMissing
  | noCoverArt
deriving DecidableEq, Repr

/-- The Cover Art Archive host tested by
`album.cover_image_url.includes('coverartarchive.org')`. -/
def caaNeedle : List Char := "coverartarchive.org".data

/-- Priorities 2–4: redirect to a Cover Art Archive URL, else to any other
stored URL, else report the 404 `NotFoundError`.  (Both redirect branches
of the source send the same stored URL.) -/
def urlTier (album : AlbumRow) : CoverResp :=
  match optStrTruthy album.coverImageUrl with
  | some url =>
      if hasSubstr caaNeedle url.data then .redirect url
      else .redirect url
  | none => .noCoverArt

/-- `getCoverArt`: look up the album row; serve the locally cached file if
its path is set and the file still exists; otherwise fall through to the
stored-URL tiers. -/
def getCoverArt (db : DB) (files : List (String × List Nat)) (id : Nat) : CoverResp :=
  match db.albums.find? fun r => r.id == id with
  | none => .albumMissing
  | some album =>
      match optStrTruthy album.localCoverPath with
      | some p =>
          if StorageService.fileExists files p then
            .file (StorageService.readCoverArt files p) (StorageService.getMimeType p)
          else urlTier album
      | none => urlTier album

end CoverArtController

/-! ## `controllers/searchController.ts` — candidate merge & dedup

The search handler merges MusicBrainz release-group candidates and
Discogs candidates.  The Discogs side is first internally deduplicated
(`addUniqueDiscogs`, by numeric release id and by normalized
`artist:album` key, both held in one `Set` — numbers and strings never
collide there, so we model them as two lists).  The final merge
(`addFinal`) walks MusicBrainz results first, then Discogs results,
dropping any candidate whose normalized key was already seen and tagging
the survivors with collection/wishlist membership.  The `isArtistMatch` /
`source` presentation tags carried by the JavaScript objects do not
influence the merge and are not modelled. -/

namespace SearchController

/-- A parsed catalogue-provider search result (`parseDiscogsRelease`):
`id` and `discogsId` are both set to the release id by the parser but are
distinct fields of the object. -/
structure DiscogsAlbum where
  id : Nat
  artist : String
  album : String
  year : Option Nat
  coverImageUrl : Option String
  discogsId : Nat
deriving DecidableEq, Repr

/-- An open-metadata-provider release-group candidate
(`getArtistReleaseGroups` output). -/
structure MBAlbum where
  mbid : String
  artist : String
  album : String
deriving DecidableEq, Repr

/-- The provenance of a merged candidate
(`source: 'musicbrainz' | 'discogs'`). -/
inductive Origin where
  | mb (a : MBAlbum)
  | dg (a : DiscogsAlbum)
deriving DecidableEq, Repr

/-- The artist string `addFinal` reads. -/
def Origin.artist : Origin → String
  | .mb a => a.artist
  | .dg a => a.artist

/-- The album string `addFinal` reads. -/
def Origin.album : Origin → String
  | .mb a => a.album
  | .dg a => a.album

/-- The `discogsId` field `addFinal` reads for ownership tagging (absent
on open-metadata candidates). -/
def Origin.discogsIdField : Origin → Option Nat
  | .mb _ => none
  | .dg a => some a.discogsId

/-- The candidate's external provider id — a MusicBrainz release-group id
or a Discogs release id — used to state the claimed per-external-id
uniqueness of the merged output. -/
def Origin.extId : Origin → Sum String Nat
  | .mb a => .inl a.mbid
  | .dg a => .inr a.id

/-- The merge key: `${normalize(artist)}:${normalize(album)}`. -/
def normKey (artist album : String) : List Char :=
  normalize artist ++ ':' :: normalize album

/-- The merge key of a candidate. -/
def Origin.key (o : Origin) : List Char :=
  normKey o.artist o.album

/-- A `discogs:<id>` ownership key, as stored in the collection and
wishlist lookup sets. -/
def dgKeyChars (d : Nat) : List Char :=
  "discogs:".data ++ (toString d).data

/-- A surviving merged candidate with its ownership tags. -/
structure MergedEntry where
  origin : Origin
  inCollection : Bool
  inWishlist : Bool
deriving DecidableEq, Repr

/-- The ownership tagging of `addFinal`: look the normalized key and (for
catalogue candidates) the `discogs:<id>` key up in the collection and
wishlist sets. -/
def tagEntry (colSet wlSet : List (List Char)) (item : Origin) : MergedEntry :=
  { origin := item,
    inCollection := colSet.contains item.key ||
      (match item.discogsIdField with
        | some d => colSet.contains (dgKeyChars d)
        | none => false),
    inWishlist := wlSet.contains item.key ||
      (match item.discogsIdField with
        | some d => wlSet.contains (dgKeyChars d)
        | none => false) }

/-- The `addFinal` loop over the remaining candidates: `seen` is the
`seenFinal` set; a candidate whose normalized key was seen is silently
dropped, otherwise it is tagged and pushed and its key recorded. -/
def mergeAux (colSet wlSet : List (List Char)) (seen : List (List Char)) :
    List Origin → List MergedEntry
  | [] => []
  | item :: rest =>
      if seen.contains item.key then mergeAux colSet wlSet seen rest
      else tagEntry colSet wlSet item :: mergeAux colSet wlSet (item.key :: seen) rest

/-- The final merged list: MusicBrainz candidates first, then Discogs
candidates, deduplicated by normalized key. -/
def finalMerged (colSet wlSet : List (List Char)) (mbResults : List MBAlbum)
    (discogsResults : List DiscogsAlbum) : List MergedEntry :=
  mergeAux colSet wlSet [] (mbResults.map .mb ++ discogsResults.map .dg)

/-- `externalResults = finalMerged.slice(0, 30)`. -/
def externalResults (colSet wlSet : List (List Char)) (mbResults : List MBAlbum)
    (discogsResults : List DiscogsAlbum) : List MergedEntry :=
  (finalMerged colSet wlSet mbResults discogsResults).take 30

/-- The `addUniqueDiscogs` loop: drop an item whose numeric id or
normalized key was already seen, otherwise record both and push it. -/
def dgMergeAux (seenIds : List Nat) (seenKeys : List (List Char)) :
    List DiscogsAlbum → List DiscogsAlbum
  | [] => []
  | item :: rest =>
      if seenIds.contains item.id then dgMergeAux seenIds seenKeys rest
      else if seenKeys.contains (normKey item.artist item.album) then
        dgMergeAux seenIds seenKeys rest
      else item :: dgMergeAux (item.id :: seenIds)
        (normKey item.artist item.album :: seenKeys) rest

/-- The Discogs-internal merge: artist-release results (processed first,
`isArtistMatch = true`) followed by free-text results. -/
def mergedDiscogs (artistReleases generalResults : List DiscogsAlbum) : List DiscogsAlbum :=
  dgMergeAux [] [] (artistReleases ++ generalResults)

end SearchController

/-! ## `services/discogs.ts` — the catalogue provider client

Each method checks the cache first.  On a cache miss the throttled HTTP
call is made; its outcome is a parameter of the embedding.  With no
configured `DISCOGS_TOKEN`, the client is constructed without an
`Authorization` header and the provider rejects database-search calls, so
the call outcome is an error — which `searchByBarcode` and
`searchByQuery` convert into a *thrown* error rather than an empty
result. -/

namespace DiscogsService

/-- A raw release object of a catalogue-provider search response.
`artistsFirstName` models `release.artists && release.artists[0]?.name`,
`imagesFirstUri` models `release.images && release.images[0]?.uri`. -/
structure RawRelease where
  title : Option String
  artistField : Option String
  artistsFirstName : Option String
  year : Option Nat
  cover_image : Option String
  imagesFirstUri : Option String
  id : Nat
deriving DecidableEq, Repr

/-- JS `String.prototype.indexOf` for a needle, on character lists. -/
def idxOfSub (needle : List Char) : List Char → Option Nat
  | [] => if needle.isEmpty then some 0 else none
  | c :: rest =>
      if startsWithChars needle (c :: rest) then some 0
      else (idxOfSub needle rest).map (· + 1)

/-- JS `String.prototype.trim` (whitespace at both ends). -/
def trimChars (l : List Char) : List Char :=
  ((l.dropWhile Char.isWhitespace).reverse.dropWhile Char.isWhitespace).reverse

/-- `parseDiscogsRelease`: split a truthy combined title on the first
`" - "` occurrence at a strictly positive index (search-result format),
override the artist with the explicit `artist`/`artists[0].name` fields
when truthy, and extract year, cover image and the release id. -/
def parseDiscogsRelease (release : RawRelease) : SearchController.DiscogsAlbum :=
  let base : String × String :=
    match optStrTruthy release.title with
    | some t =>
        match idxOfSub " - ".data t.data with
        | some sep =>
            if 0 < sep then
              (String.mk (trimChars (t.data.take sep)),
               String.mk (trimChars (t.data.drop (sep + 3))))
            else ("Unknown Artist", t)
        | none => ("Unknown Artist", t)
    | none => ("Unknown Artist", "Unknown Album")
  let artist : String :=
    match optStrTruthy release.artistField with
    | some a => a
    | none =>
        match optStrTruthy release.artistsFirstName with
        | some a => a
        | none => base.1
  { id := release.id, artist := artist, album := base.2,
    year := optNatTruthy release.year,
    coverImageUrl :=
      match optStrTruthy release.cover_image with
      | some c => some c
      | none => optStrTruthy release.imagesFirstUri,
    discogsId := release.id }

/-- `searchByBarcode`: a cached value short-circuits; a successful
response with at least one result parses (and caches) the first, an empty
result list yields `null`; a failed call is re-thrown as a new error. -/
def searchByBarcode (cached : Option SearchController.DiscogsAlbum)
    (httpResult : Except Unit (List RawRelease)) :
    Except String (Option SearchController.DiscogsAlbum) :=
  match cached with
  | some album => .ok (some album)
  | none =>
      match httpResult with
      | .ok [] => .ok none
      | .ok (r :: _) => .ok (some (parseDiscogsRelease r))
      | .error _ => .error "Failed to search Discogs by barcode"

/-- `searchByQuery`: a cached value short-circuits; a successful response
maps the parser over all results; a failed call is re-thrown. -/
def searchByQuery (cached : Option (List SearchController.DiscogsAlbum))
    (httpResult : Except Unit (List RawRelease)) :
    Except String (List SearchController.DiscogsAlbum) :=
  match cached with
  | some albums => .ok albums
  | none =>
      match httpResult with
      | .ok results => .ok (results.map parseDiscogsRelease)
      | .error _ => .error "Failed to search Discogs"

end DiscogsService

/-! ## `services/musicbrainz.ts` — the open-metadata provider client

The `MUSICBRAINZ_ENABLED` flag gates every method: when disabled, each
returns its empty value (`null`/`[]`) without touching cache or
network. -/

namespace MusicBrainzService

/-- A raw release of a MusicBrainz search response.
`artistCreditFirstName` models `release['artist-credit']?.[0]?.artist?.name`. -/
structure MBRawRelease where
  id : String
  title : Option String
  date : Option String
  artistCreditFirstName : Option String
deriving DecidableEq, Repr

/-- `MusicBrainzAlbum` (the `coverImageUrl` enrichment of
`searchAndGetCoverArt` is not needed for the claims). -/
structure MusicBrainzAlbum where
  mbid : String
  artist : String
  album : String
  year : Option Nat
  hasCoverArt : Bool
deriving DecidableEq, Repr

/-- Decimal digit prefix of a character list (JS `parseInt` semantics on
the truncated date string; `none` models `NaN`). -/
def leadingDigits : List Char → List Nat
  | [] => []
  | c :: rest =>
      if decide (Char.ofNat 48 ≤ c) && decide (c ≤ Char.ofNat 57) then
        (c.toNat - 48) :: leadingDigits rest
      else []

/-- JS `parseInt` on a character list (leading digits only). -/
def parseIntPrefix (l : List Char) : Option Nat :=
  match leadingDigits l with
  | [] => none
  | ds => some (ds.foldl (fun acc d => acc * 10 + d) 0)

/-- `parseRelease`. -/
def parseRelease (release : MBRawRelease) : MusicBrainzAlbum :=
  { mbid := release.id,
    artist :=
      match optStrTruthy release.artistCreditFirstName with
      | some a => a
      | none => "Unknown Artist",
    album :=
      match optStrTruthy release.title with
      | some t => t
      | none => "Unknown Album",
    year :=
      match optStrTruthy release.date with
      | some d => parseIntPrefix (d.data.take 4)
      | none => none,
    hasCoverArt := false }

/-- `searchRelease`: disabled → `null`; cached → cached; a successful
response with at least one release parses (and caches) the first; an
empty response or any error → `null`. -/
def searchRelease (enabled : Bool) (cached : Option MusicBrainzAlbum)
    (httpResult : Except Unit (List MBRawRelease)) : Option MusicBrainzAlbum :=
  if ¬ enabled = true then none
  else
    match cached with
    | some a => some a
    | none =>
        match httpResult with
        | .ok [] => none
        | .ok (r :: _) => some (parseRelease r)
        | .error _ => none

/-- `searchArtist`: disabled → `null`; cached → cached; the first artist
of a successful response (id and name); an empty response or any error →
`null`. -/
def searchArtist (enabled : Bool) (cached : Option (String × String))
    (httpResult : Except Unit (List (String × String))) : Option (String × String) :=
  if ¬ enabled = true then none
  else
    match cached with
    | some a => some a
    | none =>
        match httpResult with
        | .ok [] => none
        | .ok (a :: _) => some a
        | .error _ => none

end MusicBrainzService

/-! ## Theorems about the request throttle (claim C1) -/

namespace RateLimiter

theorem startTimesFrom_cons_cons (minI e : Nat) (t₁ t₂ : ThrottleTask)
    (rest : List ThrottleTask) :
    startTimesFrom minI (some e) (t₁ :: t₂ :: rest) =
      (if t₁.arrival ≤ e then e + minI else t₁.arrival) ::
        startTimesFrom minI
          (some ((if t₁.arrival ≤ e then e + minI else t₁.arrival) + t₁.duration))
          (t₂ :: rest) := by
  simp [startTimesFrom]

theorem chain_spacedOrIdle_from (minI : Nat) :
    ∀ (tasks : List ThrottleTask) (e : Nat),
      List.Chain' (spacedOrIdle minI)
        (tasks.zip (startTimesFrom minI (some e) tasks))
  | [], _ => by simp
  | [t], e => by simp [startTimesFrom]
  | t₁ :: t₂ :: rest, e => by
      have ih := chain_spacedOrIdle_from minI (t₂ :: rest)
        ((if t₁.arrival ≤ e then e + minI else t₁.arrival) + t₁.duration)
      have hQ : startTimesFrom minI (some e) (t₁ :: t₂ :: rest) =
          (if t₁.arrival ≤ e then e + minI else t₁.arrival) ::
            (if t₂.arrival ≤ (if t₁.arrival ≤ e then e + minI else t₁.arrival) + t₁.duration
              then (if t₁.arrival ≤ e then e + minI else t₁.arrival) + t₁.duration + minI
              else t₂.arrival) ::
              startTimesFrom minI
                (some ((if t₂.arrival ≤ (if t₁.arrival ≤ e then e + minI else t₁.arrival) + t₁.duration
                  then (if t₁.arrival ≤ e then e + minI else t₁.arrival) + t₁.duration + minI
                  else t₂.arrival) + t₂.duration)) rest := by
        simp [startTimesFrom]
      rw [hQ, List.zip_cons_cons, List.zip_cons_cons, List.chain'_cons]
      constructor
      · simp only [spacedOrIdle]
        by_cases h : t₂.arrival ≤ (if t₁.arrival ≤ e then e + minI else t₁.arrival) + t₁.duration
        · left
          simp only [if_pos h]
          omega
        · right
          simp only [if_neg h, and_true]
          omega
      · have hT : startTimesFrom minI
            (some ((if t₁.arrival ≤ e then e + minI else t₁.arrival) + t₁.duration))
            (t₂ :: rest) =
            (if t₂.arrival ≤ (if t₁.arrival ≤ e then e + minI else t₁.arrival) + t₁.duration
              then (if t₁.arrival ≤ e then e + minI else t₁.arrival) + t₁.duration + minI
              else t₂.arrival) ::
              startTimesFrom minI
                (some ((if t₂.arrival ≤ (if t₁.arrival ≤ e then e + minI else t₁.arrival) + t₁.duration
                  then (if t₁.arrival ≤ e then e + minI else t₁.arrival) + t₁.duration + minI
                  else t₂.arrival) + t₂.duration)) rest := by
          simp [startTimesFrom]
        rw [hT, List.zip_cons_cons] at ih
        exact ih

theorem chain_spacedOrIdle_none (minI : Nat) (t₁ t₂ : ThrottleTask)
    (rest : List ThrottleTask) :
    List.Chain' (spacedOrIdle minI)
      ((t₁ :: t₂ :: rest).zip (startTimesFrom minI none (t₁ :: t₂ :: rest))) := by
  have ih := chain_spacedOrIdle_from minI (t₂ :: rest) (t₁.arrival + t₁.duration)
  have hQ : startTimesFrom minI none (t₁ :: t₂ :: rest) =
      t₁.arrival ::
        (if t₂.arrival ≤ t₁.arrival + t₁.duration
          then t₁.arrival + t₁.duration + minI
          else t₂.arrival) ::
          startTimesFrom minI
            (some ((if t₂.arrival ≤ t₁.arrival + t₁.duration
              then t₁.arrival + t₁.duration + minI
              else t₂.arrival) + t₂.duration)) rest := by
    simp [startTimesFrom]
  rw [hQ, List.zip_cons_cons, List.zip_cons_cons, List.chain'_cons]
  constructor
  · simp only [spacedOrIdle]
    by_cases h : t₂.arrival ≤ t₁.arrival + t₁.duration
    · left
      simp only [if_pos h]
      omega
    · right
      simp only [if_neg h, and_true]
      omega
  · have hT : startTimesFrom minI (some (t₁.arrival + t₁.duration)) (t₂ :: rest) =
        (if t₂.arrival ≤ t₁.arrival + t₁.duration
          then t₁.arrival + t₁.duration + minI
          else t₂.arrival) ::
          startTimesFrom minI
            (some ((if t₂.arrival ≤ t₁.arrival + t₁.duration
              then t₁.arrival + t₁.duration + minI
              else t₂.arrival) + t₂.duration)) rest := by
      simp [startTimesFrom]
    rw [hT, List.zip_cons_cons] at ih
    exact ih

end RateLimiter

/-- C1 (counterexample): the claim "any two consecutively executed tasks
submitted through `execute()` begin at least `60000/R` ms apart, including
the case where a task is submitted after the queue has drained to idle" is
false for the code: with rate 60 req/min (`minInterval` 1000 ms), a task of
duration 0 submitted at t = 0 and a second task submitted at t = 1 — after
the queue has drained — start at times 0 and 1, only 1 ms apart. -/
theorem claim_C1_counterexample :
    ¬ ∀ (R : Nat) (tasks : List RateLimiter.ThrottleTask),
        RateLimiter.gapsAtLeast (RateLimiter.minInterval R)
          (RateLimiter.startTimes (RateLimiter.minInterval R) tasks) = true := by
  intro h
  have h2 := h 60 [⟨0, 0⟩, ⟨1, 0⟩]
  revert h2
  decide

/-- C1 (amended): for every configured rate `R` and every submission
history, any two consecutively executed tasks either begin at least
`minInterval R = 60000/R` ms apart, or the later task was submitted only
after the earlier one had finished (the queue had drained to idle), in
which case it starts immediately at its submission time.  In particular
the minimum spacing holds between all tasks processed within one
non-empty run of the queue. -/
theorem claim_C1_amended (R : Nat) (tasks : List RateLimiter.ThrottleTask) :
    List.Chain' (RateLimiter.spacedOrIdle (RateLimiter.minInterval R))
      (tasks.zip (RateLimiter.startTimes (RateLimiter.minInterval R) tasks)) := by
  match tasks with
  | [] => simp [RateLimiter.startTimes, RateLimiter.startTimesFrom]
  | [t] => simp [RateLimiter.startTimes, RateLimiter.startTimesFrom]
  | t₁ :: t₂ :: rest => exact RateLimiter.chain_spacedOrIdle_none _ t₁ t₂ rest

/-! ## Theorems about the vision resolution protocol (claims C3, C6, C7) -/

/-- C6 (counterexample): the claim "whenever the primary confidence is ≥
the configured threshold the primary result is returned immediately and
the fallback is never invoked" fails for a configurable threshold of 0 (a
value the constructor accepts): a parsed confidence of 0 satisfies
`confidence ≥ 0`, but the code's truthiness test `result.confidence &&
result.confidence >= minConfidence` is false, so the fallback is invoked
anyway (here once). -/
theorem claim_C6_counterexample :
    VisionService.minConfidenceOf (some 0) = 0 ∧
    VisionService.minConfidenceOf (some 0) ≤ 0 ∧
    (VisionService.extractAlbumInfo (VisionService.minConfidenceOf (some 0))
      "openai" (some "anthropic")
      (.ok ⟨none, none, none, 0⟩)
      (.ok ⟨some "Pink Floyd", some "The Wall", none, 50⟩)).2 = 1 := by
  decide

/-- C6 (amended): for every positive configured threshold (in particular
the default 90), whenever the primary provider's parsed confidence is at
least the threshold, `extractAlbumInfo` returns the primary result
unchanged and the fallback provider is never invoked (invocation count
0). -/
theorem claim_C6_amended (minConfidence : Nat) (primaryName : String)
    (fallbackProvider : Option String)
    (fbRun : Except Unit VisionService.RawVision)
    (praw : VisionService.RawVision)
    (hpos : 1 ≤ minConfidence) (hconf : minConfidence ≤ praw.confidence) :
    VisionService.extractAlbumInfo minConfidence primaryName fallbackProvider
        (.ok praw) fbRun =
      (.ok (VisionService.rawToOut primaryName praw false none), 0) := by
  have hc : 0 < praw.confidence ∧ minConfidence ≤ praw.confidence :=
    ⟨Nat.lt_of_lt_of_le hpos hconf, hconf⟩
  simp [VisionService.extractAlbumInfo, hc]

/-- C6 (witness for the amended theorem). -/
theorem claim_C6_witness :
    VisionService.extractAlbumInfo 90 "openai" (some "anthropic")
        (.ok ⟨some "Pink Floyd", some "The Wall", some 1979, 95⟩)
        (.ok ⟨none, none, none, 40⟩) =
      (.ok (VisionService.rawToOut "openai"
        ⟨some "Pink Floyd", some "The Wall", some 1979, 95⟩ false none), 0) :=
  claim_C6_amended 90 "openai" (some "anthropic")
    (.ok ⟨none, none, none, 40⟩)
    ⟨some "Pink Floyd", some "The Wall", some 1979, 95⟩
    (by decide) (by decide)

/-- C7: when the primary provider succeeds with confidence below the
threshold and a fallback provider is configured and succeeds, the fallback
is invoked (exactly once) and the returned result's confidence is the
maximum of the two providers' confidences. -/
theorem claim_C7 (minConfidence : Nat) (primaryName fbName : String)
    (praw fraw : VisionService.RawVision)
    (hlow : praw.confidence < minConfidence) :
    (VisionService.extractAlbumInfo minConfidence primaryName (some fbName)
        (.ok praw) (.ok fraw)).2 = 1 ∧
    ∃ out : VisionService.VisionOut,
      (VisionService.extractAlbumInfo minConfidence primaryName (some fbName)
          (.ok praw) (.ok fraw)).1 = .ok out ∧
        out.confidence = max praw.confidence fraw.confidence := by
  have hc : ¬ (0 < praw.confidence ∧ minConfidence ≤ praw.confidence) := by
    rintro ⟨-, h⟩; omega
  by_cases hwin : 0 < fraw.confidence ∧ praw.confidence < fraw.confidence
  · refine ⟨?_, ⟨VisionService.rawToOut fbName fraw true
      (some (VisionService.outToAlt (VisionService.rawToOut primaryName praw false none))), ?_, ?_⟩⟩
    · simp [VisionService.extractAlbumInfo, hc, hwin]
    · simp [VisionService.extractAlbumInfo, hc, hwin]
    · simp only [VisionService.rawToOut]
      omega
  · refine ⟨?_, ⟨{ VisionService.rawToOut primaryName praw false none with
      alternate := some (VisionService.rawToAlt fbName fraw) }, ?_, ?_⟩⟩
    · simp [VisionService.extractAlbumInfo, hc, hwin]
    · simp [VisionService.extractAlbumInfo, hc, hwin]
    · simp only [VisionService.rawToOut]
      omega

/-- C7 (witness). -/
theorem claim_C7_witness :
    (VisionService.extractAlbumInfo 90 "openai" (some "anthropic")
        (.ok ⟨some "A", some "B", none, 50⟩) (.ok ⟨some "C", some "D", none, 80⟩)).2 = 1 ∧
    ∃ out : VisionService.VisionOut,
      (VisionService.extractAlbumInfo 90 "openai" (some "anthropic")
          (.ok ⟨some "A", some "B", none, 50⟩) (.ok ⟨some "C", some "D", none, 80⟩)).1 = .ok out ∧
        out.confidence = max 50 80 :=
  claim_C7 90 "openai" "anthropic"
    ⟨some "A", some "B", none, 50⟩ ⟨some "C", some "D", none, 80⟩ (by decide)

/-- C3 (counterexample): the claim "whenever the fallback runs because the
primary confidence was below threshold, the returned result has
`usedFallback = true` regardless of which result wins" is false: with
threshold 90, primary confidence 80 and fallback confidence 70, the
fallback runs (count 1) but the primary result wins and is returned with
`usedFallback = false` (the fallback is attached as the alternate). -/
theorem claim_C3_counterexample :
    VisionService.extractAlbumInfo 90 "openai" (some "anthropic")
        (.ok ⟨some "A", some "B", none, 80⟩) (.ok ⟨some "C", some "D", none, 70⟩) =
      (.ok ⟨some "A", some "B", none, 80, "openai", false,
            some ⟨some "C", some "D", none, 70, "anthropic"⟩⟩, 1) := by
  rfl

/-- C3 (amended): when the fallback provider runs because the primary's
parsed confidence failed the threshold test, the returned result has
`usedFallback = true` exactly when the fallback result wins the strict
confidence comparison; when the primary wins it is returned with
`usedFallback = false`.  In both cases the losing result is attached (in
the `primaryResult` field) for transparency. -/
theorem claim_C3_amended (minConfidence : Nat) (primaryName fbName : String)
    (praw fraw : VisionService.RawVision)
    (hlow : ¬ (0 < praw.confidence ∧ minConfidence ≤ praw.confidence)) :
    VisionService.extractAlbumInfo minConfidence primaryName (some fbName)
        (.ok praw) (.ok fraw) =
      (if 0 < fraw.confidence ∧ praw.confidence < fraw.confidence then
        (.ok (VisionService.rawToOut fbName fraw true
          (some (VisionService.outToAlt (VisionService.rawToOut primaryName praw false none)))), 1)
      else
        (.ok { VisionService.rawToOut primaryName praw false none with
          alternate := some (VisionService.rawToAlt fbName fraw) }, 1)) := by
  by_cases hwin : 0 < fraw.confidence ∧ praw.confidence < fraw.confidence
  · simp [VisionService.extractAlbumInfo, hlow, hwin]
  · simp [VisionService.extractAlbumInfo, hlow, hwin]

/-- C3 (witness for the amended theorem, fallback-wins side). -/
theorem claim_C3_witness :
    VisionService.extractAlbumInfo 90 "openai" (some "anthropic")
        (.ok ⟨some "A", some "B", none, 40⟩) (.ok ⟨some "C", some "D", none, 60⟩) =
      (if 0 < (60:Nat) ∧ (40:Nat) < 60 then
        (.ok (VisionService.rawToOut "anthropic" ⟨some "C", some "D", none, 60⟩ true
          (some (VisionService.outToAlt
            (VisionService.rawToOut "openai" ⟨some "A", some "B", none, 40⟩ false none)))), 1)
      else
        (.ok { VisionService.rawToOut "openai" ⟨some "A", some "B", none, 40⟩ false none with
          alternate := some (VisionService.rawToAlt "anthropic" ⟨some "C", some "D", none, 60⟩) }, 1)) :=
  claim_C3_amended 90 "openai" "anthropic"
    ⟨some "A", some "B", none, 40⟩ ⟨some "C", some "D", none, 60⟩ (by decide)

/-! ## Theorems about MD5 and local storage (claim C10) -/

set_option maxRecDepth 10000 in
theorem md5_rfc1321_empty :
    String.mk (MD5.md5hexChars []) = "d41d8cd98f00b204e9800998ecf8427e" := by
  rfl

set_option maxRecDepth 10000 in
theorem md5_rfc1321_abc :
    String.mk (MD5.md5hexChars [97, 98, 99]) = "900150983cd24fb0d6963f7d28e17f72" := by
  rfl

theorem writeFile_writeFile (files : List (String × List Nat)) (fn : String) (bytes : List Nat) :
    StorageService.writeFile (StorageService.writeFile files fn bytes) fn bytes =
      StorageService.writeFile files fn bytes := by
  induction files with
  | nil => simp [StorageService.writeFile]
  | cons p rest ih =>
      obtain ⟨fn₀, b₀⟩ := p
      by_cases h : fn₀ = fn
      · simp [StorageService.writeFile, h]
      · simp [StorageService.writeFile, h, ih]

theorem hexDigit_isHexLower (n : Nat) (h : n < 16) :
    isHexLower (MD5.hexDigit n) = true := by
  have hd : ∀ m < 16, isHexLower (MD5.hexDigit m) = true := by decide
  exact hd n h

theorem byteHex_isHexLower (b : Nat) (hb : b < 256) :
    ∀ c ∈ MD5.byteHex b, isHexLower c = true := by
  intro c hc
  simp [MD5.byteHex] at hc
  rcases hc with h | h <;> rw [h] <;> exact hexDigit_isHexLower _ (by omega)

theorem wordLEHex_isHexLower (w : Nat) :
    ∀ c ∈ MD5.wordLEHex w, isHexLower c = true := by
  intro c hc
  simp only [MD5.wordLEHex] at hc
  rcases List.mem_flatten.mp hc with ⟨a, ha, hca⟩
  rcases List.mem_map.mp ha with ⟨i, _, rfl⟩
  exact byteHex_isHexLower _ (Nat.mod_lt _ (by omega)) c hca

theorem md5hexChars_isHexLower (msg : List Nat) :
    ∀ c ∈ MD5.md5hexChars msg, isHexLower c = true := by
  intro c hc
  simp only [MD5.md5hexChars, List.append_assoc, List.mem_append] at hc
  rcases hc with h | h | h | h <;> exact wordLEHex_isHexLower _ c h

theorem wordLEHex_length (w : Nat) : (MD5.wordLEHex w).length = 8 := by
  simp [MD5.wordLEHex, MD5.byteHex, List.range_succ]

theorem md5hexChars_length (msg : List Nat) : (MD5.md5hexChars msg).length = 32 := by
  simp [MD5.md5hexChars, wordLEHex_length]

theorem detectImageFormat_mem (buffer : List Nat) :
    StorageService.detectImageFormat buffer ∈ (["jpg", "png", "gif", "webp"] : List String) := by
  unfold StorageService.detectImageFormat
  split
  · simp
  · split
    · simp
    · split
      · simp
      · split <;> simp

/-- C10: saving cover art is deterministic and content-addressed.  The
returned filename is always `{albumId}_{first 8 hex chars of
md5(buffer)}.{extension from the buffer's magic bytes}` — an 8-character
lower-case-hex hash slice and one of the four sniffed extensions — and
re-saving the same bytes for the same album writes the same filename and
leaves the storage directory exactly as after the first save (the file is
overwritten, not duplicated). -/
theorem claim_C10 (files : List (String × List Nat)) (buffer : List Nat) (albumId : Nat) :
    (StorageService.saveCoverArt files buffer albumId).2 =
      StorageService.coverFileName buffer albumId ∧
    (StorageService.saveCoverArt (StorageService.saveCoverArt files buffer albumId).1
        buffer albumId).2 = (StorageService.saveCoverArt files buffer albumId).2 ∧
    (StorageService.saveCoverArt (StorageService.saveCoverArt files buffer albumId).1
        buffer albumId).1 = (StorageService.saveCoverArt files buffer albumId).1 ∧
    (StorageService.coverFileName buffer albumId).data =
      (toString albumId).data ++ '_' :: (MD5.md5hexChars buffer).take 8 ++
        '.' :: (StorageService.detectImageFormat buffer).data ∧
    ((MD5.md5hexChars buffer).take 8).length = 8 ∧
    (∀ c ∈ (MD5.md5hexChars buffer).take 8, isHexLower c = true) ∧
    StorageService.detectImageFormat buffer ∈ (["jpg", "png", "gif", "webp"] : List String) := by
  refine ⟨rfl, rfl, ?_, rfl, ?_, ?_, detectImageFormat_mem buffer⟩
  · exact writeFile_writeFile files (StorageService.coverFileName buffer albumId) buffer
  · simp [List.length_take, md5hexChars_length]
  · intro c hc
    exact md5hexChars_isHexLower buffer c (List.mem_of_mem_take hc)

/-! ## Theorems about `addAlbum` duplicate handling (claim C2) -/

theorem lowerChars_eq_nil_iff (s : String) : lowerChars s = [] ↔ s.data = [] := by
  simp [lowerChars]

namespace AlbumController

theorem resolveArtist_albums (db : DB) (a : String) :
    (resolveArtist db a).2.albums = db.albums := by
  unfold resolveArtist
  cases findArtistIdByLowerName db.artists a <;> rfl

theorem resolveArtist_collections (db : DB) (a : String) :
    (resolveArtist db a).2.collections = db.collections := by
  unfold resolveArtist
  cases findArtistIdByLowerName db.artists a <;> rfl

theorem resolveAlbum_artists (db1 : DB) (i : Nat) (inp : AddInput) :
    (resolveAlbum db1 i inp).2.artists = db1.artists := by
  unfold resolveAlbum
  cases findAlbumIdByLowerTitle db1.albums i inp.album <;> rfl

theorem resolveAlbum_collections (db1 : DB) (i : Nat) (inp : AddInput) :
    (resolveAlbum db1 i inp).2.collections = db1.collections := by
  unfold resolveAlbum
  cases findAlbumIdByLowerTitle db1.albums i inp.album <;> rfl


theorem insertBarcode_artists (d : DB) (ob : Option String) (aid : Nat) :
    (insertBarcode d ob aid).artists = d.artists := by
  cases ob with
  | none => rfl
  | some bc =>
      simp only [insertBarcode]
      split <;> rfl

theorem insertBarcode_albums (d : DB) (ob : Option String) (aid : Nat) :
    (insertBarcode d ob aid).albums = d.albums := by
  cases ob with
  | none => rfl
  | some bc =>
      simp only [insertBarcode]
      split <;> rfl

theorem insertBarcode_collections (d : DB) (ob : Option String) (aid : Nat) :
    (insertBarcode d ob aid).collections = d.collections := by
  cases ob with
  | none => rfl
  | some bc =>
      simp only [insertBarcode]
      split <;> rfl

/-- Re-running the artist lookup after `resolveArtist`, with a name equal
up to lowercasing, finds the id `resolveArtist` resolved. -/
theorem findArtistId_after_resolve (db : DB) (a a2 : String)
    (h : lowerChars a2 = lowerChars a) :
    findArtistIdByLowerName (resolveArtist db a).2.artists a2 =
      some (resolveArtist db a).1 := by
  unfold resolveArtist
  cases hfa : findArtistIdByLowerName db.artists a with
  | some i =>
      simp only [hfa]
      show findArtistIdByLowerName db.artists a2 = some i
      unfold findArtistIdByLowerName at hfa ⊢
      simp only [h]
      exact hfa
  | none =>
      simp only [hfa]
      show findArtistIdByLowerName (db.artists ++ [⟨db.nextArtistId, a⟩]) a2 =
        some db.nextArtistId
      unfold findArtistIdByLowerName at hfa ⊢
      have hf : db.artists.find? (fun r => lowerChars r.name == lowerChars a) = none :=
        Option.map_eq_none'.mp hfa
      simp [h, List.find?_append, hf, List.find?]

/-- Re-running the album lookup after `resolveAlbum`, with the same artist
id and a title equal up to lowercasing, finds the id `resolveAlbum`
resolved. -/
theorem findAlbumId_after_resolve (db1 : DB) (artistId : Nat) (inp : AddInput)
    (t2 : String) (h : lowerChars t2 = lowerChars inp.album) :
    findAlbumIdByLowerTitle (resolveAlbum db1 artistId inp).2.albums artistId t2 =
      some (resolveAlbum db1 artistId inp).1 := by
  unfold resolveAlbum
  cases hfb : findAlbumIdByLowerTitle db1.albums artistId inp.album with
  | some i =>
      simp only [hfb]
      show findAlbumIdByLowerTitle db1.albums artistId t2 = some i
      unfold findAlbumIdByLowerTitle at hfb ⊢
      simp only [h]
      exact hfb
  | none =>
      simp only [hfb]
      show findAlbumIdByLowerTitle
        (db1.albums ++ [⟨db1.nextAlbumId, artistId, inp.album, optNatTruthy inp.year,
          optStrTruthy inp.coverImageUrl, optNatTruthy inp.discogsId, none, false⟩])
        artistId t2 = some db1.nextAlbumId
      unfold findAlbumIdByLowerTitle at hfb ⊢
      have hf : db1.albums.find? (fun r =>
          r.artistId == artistId && lowerChars r.title == lowerChars inp.album) = none :=
        Option.map_eq_none'.mp hfb
      simp [h, List.find?_append, hf, List.find?]

/-- `resolveArtist` when the lookup succeeds. -/
theorem resolveArtist_eq_of_found (C : DB) (a : String) (i : Nat)
    (h : findArtistIdByLowerName C.artists a = some i) :
    resolveArtist C a = (i, C) := by
  unfold resolveArtist
  rw [h]

/-- `resolveAlbum` when the lookup succeeds. -/
theorem resolveAlbum_eq_of_found (C : DB) (i : Nat) (inp : AddInput) (j : Nat)
    (h : findAlbumIdByLowerTitle C.albums i inp.album = some j) :
    resolveAlbum C i inp = (j, C) := by
  unfold resolveAlbum
  rw [h]

/-- `addAlbum` with a passing validation guard, in terms of its steps. -/
theorem addAlbum_unfold (db : DB) (inp : AddInput)
    (hg : ¬ (inp.artist.data.isEmpty || inp.album.data.isEmpty) = true) :
    addAlbum db inp = mkMembership db
      (resolveAlbum (resolveArtist db inp.artist).2 (resolveArtist db inp.artist).1 inp)
      (optStrTruthy inp.barcode) := by
  unfold addAlbum
  rw [if_neg hg]

/-- What a successful membership insert tells us: the album id was not yet
a member, and the committed store is the one with the membership row (and
possibly the barcode row) appended. -/
theorem mkMembership_created (db : DB) (st : Nat × DB) (ob : Option String) (aid : Nat)
    (h : (mkMembership db st ob).1 = .created aid) :
    st.2.collections.contains st.1 = false ∧
    (mkMembership db st ob).2 =
      insertBarcode { st.2 with collections := st.2.collections ++ [st.1] } ob st.1 := by
  unfold mkMembership at h ⊢
  cases hc : st.2.collections.contains st.1 with
  | true =>
      rw [if_pos hc] at h
      simp at h
  | false =>
      rw [if_neg (by simp [hc])]
      exact ⟨rfl, rfl⟩

/-- `addAlbum` on a store where both lookups resolve to an id that is
already a member: the 409 conflict, with the store returned unchanged. -/
theorem addAlbum_conflict_of_found (C : DB) (inp2 : AddInput) (i j : Nat)
    (hg2 : ¬ (inp2.artist.data.isEmpty || inp2.album.data.isEmpty) = true)
    (hart : findArtistIdByLowerName C.artists inp2.artist = some i)
    (halb : findAlbumIdByLowerTitle C.albums i inp2.album = some j)
    (hmem : C.collections.contains j = true) :
    addAlbum C inp2 = (.conflict, C) := by
  rw [addAlbum_unfold C inp2 hg2]
  rw [resolveArtist_eq_of_found C inp2.artist i hart]
  rw [show ((i, C) : Nat × DB).2 = C from rfl, show ((i, C) : Nat × DB).1 = i from rfl]
  rw [resolveAlbum_eq_of_found C i inp2 j halb]
  unfold mkMembership
  rw [if_pos (show ((j, C) : Nat × DB).2.collections.contains ((j, C) : Nat × DB).1 = true
    from hmem)]

end AlbumController

/-- C2 (counterexample): the claim "a second add whose artist and title
are equal under the normalization rule (lowercase, strip all
non-alphanumeric characters) raises the 409 ConflictError and leaves the
store unchanged" is false: "Pink-Floyd" and "Pink Floyd" normalize
identically, yet after adding ("Pink Floyd", "The Wall") to an empty
store a second add of ("Pink-Floyd", "The Wall") succeeds with 201 —
`addAlbum` matches existing rows only by case-insensitive equality
(`LOWER(name)`/`LOWER(title)`), which distinguishes the two spellings, so
a second artist row, album row and membership row are committed. -/
theorem claim_C2_counterexample :
    SearchController.normalize "Pink-Floyd" = SearchController.normalize "Pink Floyd" ∧
    (AlbumController.addAlbum ⟨[], [], [], [], 1, 1⟩
        ⟨"Pink Floyd", "The Wall", none, none, none, none⟩).1 = .created 1 ∧
    (AlbumController.addAlbum
        (AlbumController.addAlbum ⟨[], [], [], [], 1, 1⟩
          ⟨"Pink Floyd", "The Wall", none, none, none, none⟩).2
        ⟨"Pink-Floyd", "The Wall", none, none, none, none⟩).1 = .created 2 := by
  decide

/-- C2 (amended): for every pair of add operations whose artist and title
are equal under *case-insensitive equality* (the `LOWER(...)` matching
the code actually performs, rather than the strip-non-alphanumeric
normalization), if the first add succeeds then the second add raises the
409 ConflictError and returns the store exactly as the first add left it:
the transaction is rolled back, so no duplicate artist, album, or
membership rows are committed. -/
theorem claim_C2_amended (db : DB) (inp inp2 : AlbumController.AddInput) (aid : Nat)
    (ha : lowerChars inp2.artist = lowerChars inp.artist)
    (ht : lowerChars inp2.album = lowerChars inp.album)
    (h1 : (AlbumController.addAlbum db inp).1 = .created aid) :
    AlbumController.addAlbum (AlbumController.addAlbum db inp).2 inp2 =
      (.conflict, (AlbumController.addAlbum db inp).2) := by
  by_cases hg : (inp.artist.data.isEmpty || inp.album.data.isEmpty) = true
  · exfalso
    unfold AlbumController.addAlbum at h1
    rw [if_pos hg] at h1
    simp at h1
  · have hga : inp.artist.data ≠ [] := fun hnil => hg (by simp [hnil])
    have hgb : inp.album.data ≠ [] := fun hnil => hg (by simp [hnil])
    have hga2 : inp2.artist.data ≠ [] := by
      intro hnil
      apply hga
      have h' : lowerChars inp2.artist = [] := by simp [lowerChars, hnil]
      rw [ha] at h'
      exact (lowerChars_eq_nil_iff inp.artist).mp h'
    have hgb2 : inp2.album.data ≠ [] := by
      intro hnil
      apply hgb
      have h' : lowerChars inp2.album = [] := by simp [lowerChars, hnil]
      rw [ht] at h'
      exact (lowerChars_eq_nil_iff inp.album).mp h'
    have hg2 : ¬ (inp2.artist.data.isEmpty || inp2.album.data.isEmpty) = true := by
      simp [hga2, hgb2]
    rw [AlbumController.addAlbum_unfold db inp hg] at h1 ⊢
    obtain ⟨hcont, hC⟩ := AlbumController.mkMembership_created db _ _ aid h1
    rw [hC]
    apply AlbumController.addAlbum_conflict_of_found _ _
      (AlbumController.resolveArtist db inp.artist).1
      (AlbumController.resolveAlbum (AlbumController.resolveArtist db inp.artist).2
        (AlbumController.resolveArtist db inp.artist).1 inp).1 hg2
    · rw [AlbumController.insertBarcode_artists]
      show findArtistIdByLowerName
        (AlbumController.resolveAlbum (AlbumController.resolveArtist db inp.artist).2
          (AlbumController.resolveArtist db inp.artist).1 inp).2.artists inp2.artist = _
      rw [AlbumController.resolveAlbum_artists]
      exact AlbumController.findArtistId_after_resolve db inp.artist inp2.artist ha
    · rw [AlbumController.insertBarcode_albums]
      show findAlbumIdByLowerTitle
        (AlbumController.resolveAlbum (AlbumController.resolveArtist db inp.artist).2
          (AlbumController.resolveArtist db inp.artist).1 inp).2.albums _ inp2.album = _
      exact AlbumController.findAlbumId_after_resolve _ _ inp inp2.album ht
    · rw [AlbumController.insertBarcode_collections]
      show ((AlbumController.resolveAlbum (AlbumController.resolveArtist db inp.artist).2
        (AlbumController.resolveArtist db inp.artist).1 inp).2.collections ++
        [(AlbumController.resolveAlbum (AlbumController.resolveArtist db inp.artist).2
          (AlbumController.resolveArtist db inp.artist).1 inp).1]).contains _ = true
      simp

/-- C2 (witness for the amended theorem): re-adding "PINK FLOYD" / "the
wall" after adding "Pink Floyd" / "The Wall" to an empty store yields the
409 conflict and the unchanged committed store. -/
theorem claim_C2_witness :
    AlbumController.addAlbum
        (AlbumController.addAlbum ⟨[], [], [], [], 1, 1⟩
          ⟨"Pink Floyd", "The Wall", none, none, none, none⟩).2
        ⟨"PINK FLOYD", "the wall", none, none, none, none⟩ =
      (.conflict,
        (AlbumController.addAlbum ⟨[], [], [], [], 1, 1⟩
          ⟨"Pink Floyd", "The Wall", none, none, none, none⟩).2) :=
  claim_C2_amended ⟨[], [], [], [], 1, 1⟩
    ⟨"Pink Floyd", "The Wall", none, none, none, none⟩
    ⟨"PINK FLOYD", "the wall", none, none, none, none⟩ 1
    (by decide) (by decide) (by decide)

/-! ## Theorems about the cover-art read path (claim C8) -/

theorem fileExists_writeFile (files : List (String × List Nat)) (fn : String)
    (bytes : List Nat) :
    StorageService.fileExists (StorageService.writeFile files fn bytes) fn = true := by
  induction files with
  | nil => simp [StorageService.writeFile, StorageService.fileExists]
  | cons p rest ih =>
      obtain ⟨fn₀, b₀⟩ := p
      by_cases h : fn₀ = fn
      · simp [StorageService.writeFile, StorageService.fileExists, h]
      · simp [StorageService.writeFile, StorageService.fileExists, h] at ih ⊢
        exact ih

theorem readCoverArt_writeFile (files : List (String × List Nat)) (fn : String)
    (bytes : List Nat) :
    StorageService.readCoverArt (StorageService.writeFile files fn bytes) fn = bytes := by
  induction files with
  | nil => simp [StorageService.writeFile, StorageService.readCoverArt, List.find?]
  | cons p rest ih =>
      obtain ⟨fn₀, b₀⟩ := p
      by_cases h : fn₀ = fn
      · simp [StorageService.writeFile, StorageService.readCoverArt, h, List.find?]
      · simp only [StorageService.writeFile, if_neg h]
        simp only [StorageService.readCoverArt, List.find?] at ih ⊢
        have hb : (fn₀ == fn) = false := by simp [h]
        simp only [hb]
        exact ih

/-- C8: the cover-art read path follows the strict priority order.  For an
existing album row: (1) a set local path whose file still exists is served
as image bytes with its extension's MIME type, regardless of any stored
URL; (2) if the local path is unset — or set but stale, i.e. the file no
longer exists — the read falls through to the URL tiers rather than
erroring; (3) in the URL tiers a (truthy) stored URL is redirected to —
in particular a Cover Art Archive URL — and with no stored URL the result
is the 404 "no cover art" error. -/
theorem claim_C8 (db : DB) (files : List (String × List Nat)) (id : Nat)
    (album : AlbumRow)
    (hrow : db.albums.find? (fun r => r.id == id) = some album) :
    (∀ p, optStrTruthy album.localCoverPath = some p →
      StorageService.fileExists files p = true →
      CoverArtController.getCoverArt db files id =
        .file (StorageService.readCoverArt files p) (StorageService.getMimeType p)) ∧
    (∀ p, optStrTruthy album.localCoverPath = some p →
      StorageService.fileExists files p = false →
      CoverArtController.getCoverArt db files id = CoverArtController.urlTier album) ∧
    (optStrTruthy album.localCoverPath = none →
      CoverArtController.getCoverArt db files id = CoverArtController.urlTier album) ∧
    (∀ u, optStrTruthy album.coverImageUrl = some u →
      CoverArtController.urlTier album = .redirect u) ∧
    (optStrTruthy album.coverImageUrl = none →
      CoverArtController.urlTier album = .noCoverArt) := by
  refine ⟨?_, ?_, ?_, ?_, ?_⟩
  · intro p hp hex
    unfold CoverArtController.getCoverArt
    rw [hrow]
    simp only [hp, hex]
    simp
  · intro p hp hex
    unfold CoverArtController.getCoverArt
    rw [hrow]
    simp only [hp, hex]
    simp
  · intro hp
    unfold CoverArtController.getCoverArt
    rw [hrow]
    simp only [hp]
  · intro u hu
    unfold CoverArtController.urlTier
    rw [hu]
    show (if hasSubstr CoverArtController.caaNeedle u.data = true then
      CoverArtController.CoverResp.redirect u else CoverArtController.CoverResp.redirect u) =
      CoverArtController.CoverResp.redirect u
    split <;> rfl
  · intro hu
    unfold CoverArtController.urlTier
    rw [hu]

/-- C8 (witness): a store with one album carrying both a cached local file
and a stored external URL serves the local bytes. -/
theorem claim_C8_witness :
    CoverArtController.getCoverArt
      ⟨[⟨1, "a"⟩],
       [⟨1, 1, "t", none, some "http://img.example/x.jpg", none, some "1_abc.jpg", true⟩],
       [1], [], 2, 2⟩
      [("1_abc.jpg", [255, 216, 255, 0])] 1 =
      .file [255, 216, 255, 0] "image/jpeg" := by
  have h := claim_C8
    ⟨[⟨1, "a"⟩],
     [⟨1, 1, "t", none, some "http://img.example/x.jpg", none, some "1_abc.jpg", true⟩],
     [1], [], 2, 2⟩
    [("1_abc.jpg", [255, 216, 255, 0])] 1
    ⟨1, 1, "t", none, some "http://img.example/x.jpg", none, some "1_abc.jpg", true⟩
    (by decide)
  have h2 := h.1 "1_abc.jpg" (by decide) (by decide)
  rw [h2]
  rfl

/-! ## Theorems about synchronous cover caching on add (claim C9) -/
/-! ## Theorems about synchronous cover caching on add (claim C9) -/

theorem mkMembership_created_id (db : DB) (st : Nat × DB) (ob : Option String) (aid : Nat)
    (h : (AlbumController.mkMembership db st ob).1 = .created aid) : aid = st.1 := by
  unfold AlbumController.mkMembership at h
  cases hc : st.2.collections.contains st.1 with
  | true =>
      rw [if_pos hc] at h
      simp at h
  | false =>
      rw [if_neg (by rw [hc]; simp)] at h
      simp at h
      exact h.symm

theorem resolveAlbum_find_row (db1 : DB) (i : Nat) (inp : AlbumController.AddInput) :
    ∃ r, (AlbumController.resolveAlbum db1 i inp).2.albums.find?
      (fun x => x.id == (AlbumController.resolveAlbum db1 i inp).1) = some r := by
  unfold AlbumController.resolveAlbum
  cases hfb : findAlbumIdByLowerTitle db1.albums i inp.album with
  | some j =>
      simp only [hfb]
      show ∃ r, db1.albums.find? (fun x => x.id == j) = some r
      unfold findAlbumIdByLowerTitle at hfb
      cases hmap : db1.albums.find?
          (fun r => r.artistId == i && lowerChars r.title == lowerChars inp.album) with
      | none => rw [hmap] at hfb; simp at hfb
      | some row =>
          rw [hmap] at hfb
          simp at hfb
          have hmem := List.mem_of_find?_eq_some hmap
          cases hfind : db1.albums.find? (fun x => x.id == j) with
          | some r => exact ⟨r, rfl⟩
          | none =>
              exfalso
              rw [List.find?_eq_none] at hfind
              exact hfind row hmem (by simp [hfb])
  | none =>
      simp only [hfb]
      show ∃ r, (db1.albums ++
        [({ id := db1.nextAlbumId, artistId := i, title := inp.album,
            year := optNatTruthy inp.year, coverImageUrl := optStrTruthy inp.coverImageUrl,
            discogsId := optNatTruthy inp.discogsId, localCoverPath := none,
            coverArtFetched := false } : AlbumRow)]).find?
        (fun x => x.id == db1.nextAlbumId) = some r
      cases hfind : (db1.albums ++
          [({ id := db1.nextAlbumId, artistId := i, title := inp.album,
              year := optNatTruthy inp.year, coverImageUrl := optStrTruthy inp.coverImageUrl,
              discogsId := optNatTruthy inp.discogsId, localCoverPath := none,
              coverArtFetched := false } : AlbumRow)]).find?
          (fun x => x.id == db1.nextAlbumId) with
      | some r => exact ⟨r, rfl⟩
      | none =>
          exfalso
          rw [List.find?_eq_none] at hfind
          exact hfind
            ({ id := db1.nextAlbumId, artistId := i, title := inp.album,
               year := optNatTruthy inp.year, coverImageUrl := optStrTruthy inp.coverImageUrl,
               discogsId := optNatTruthy inp.discogsId, localCoverPath := none,
               coverArtFetched := false } : AlbumRow)
            (by simp) (by simp)

/-- A created add leaves a row with the returned id in the committed
store. -/
theorem addAlbum_created_row (db : DB) (inp : AlbumController.AddInput) (aid : Nat)
    (h1 : (AlbumController.addAlbum db inp).1 = .created aid) :
    ∃ r, (AlbumController.addAlbum db inp).2.albums.find? (fun x => x.id == aid) = some r := by
  by_cases hg : (inp.artist.data.isEmpty || inp.album.data.isEmpty) = true
  · exfalso
    unfold AlbumController.addAlbum at h1
    rw [if_pos hg] at h1
    simp at h1
  · rw [AlbumController.addAlbum_unfold db inp hg] at h1 ⊢
    obtain ⟨hcont, hC⟩ := AlbumController.mkMembership_created db _ _ aid h1
    have hid := mkMembership_created_id db _ _ aid h1
    rw [hC, AlbumController.insertBarcode_albums]
    subst hid
    show ∃ r, (AlbumController.resolveAlbum (AlbumController.resolveArtist db inp.artist).2
      (AlbumController.resolveArtist db inp.artist).1 inp).2.albums.find?
      (fun x => x.id == (AlbumController.resolveAlbum
        (AlbumController.resolveArtist db inp.artist).2
        (AlbumController.resolveArtist db inp.artist).1 inp).1) = some r
    exact resolveAlbum_find_row _ _ inp

/-- The row update of `updateCoverRow` is visible through the id lookup. -/
theorem find_updateCoverRow (l : List AlbumRow) (aid : Nat) (fn : String) (r₀ : AlbumRow)
    (h : l.find? (fun x => x.id == aid) = some r₀) :
    (updateCoverRow l aid fn).find? (fun x => x.id == aid) =
      some { r₀ with localCoverPath := some fn, coverArtFetched := true } := by
  induction l with
  | nil => simp [List.find?] at h
  | cons x rest ih =>
      cases hx : (x.id == aid) with
      | true =>
          simp only [List.find?, hx, cond_true] at h
          have hx0 : x = r₀ := by injection h
          subst hx0
          simp [updateCoverRow, List.find?, hx]
      | false =>
          simp only [List.find?, hx, cond_false] at h
          have ih2 := ih h
          simp only [updateCoverRow, List.map_cons, hx, if_false, List.find?, cond_false]
          simp only [updateCoverRow] at ih2
          simpa [List.find?, hx] using ih2

theorem coverFileName_data_ne_nil (buffer : List Nat) (albumId : Nat) :
    (StorageService.coverFileName buffer albumId).data ≠ [] := by
  simp [StorageService.coverFileName]


theorem optStrTruthy_coverFileName (buf : List Nat) (aid : Nat) :
    optStrTruthy (some (StorageService.coverFileName buf aid)) =
      some (StorageService.coverFileName buf aid) := by
  show (if (StorageService.coverFileName buf aid).data.isEmpty = true then none
    else some (StorageService.coverFileName buf aid)) =
    some (StorageService.coverFileName buf aid)
  rw [if_neg]
  intro hc
  exact coverFileName_data_ne_nil buf aid (by simpa using hc)

/-- C9: adding an item that carries a (truthy) fallback cover URL while
the open-metadata provider is disabled skips the open-metadata search
entirely and downloads and persists the fallback image synchronously,
before the add call returns: no background task is scheduled, the storage
state already holds the saved file, and the read path's local-file tier
immediately serves the downloaded bytes. -/
theorem claim_C9 (db : DB) (files : List (String × List Nat))
    (inp : AlbumController.AddInput) (download : String → Except Unit (List Nat))
    (url : String) (buf : List Nat) (aid : Nat)
    (hurl : optStrTruthy inp.coverImageUrl = some url)
    (hdl : download url = .ok buf)
    (h1 : (AlbumController.addAlbum db inp).1 = .created aid) :
    (AlbumController.addAlbumWithCover db files false inp download).resp = .created aid ∧
    (AlbumController.addAlbumWithCover db files false inp download).mbSearchInvoked = false ∧
    (AlbumController.addAlbumWithCover db files false inp download).backgroundScheduled
      = false ∧
    (AlbumController.addAlbumWithCover db files false inp download).files =
      (StorageService.saveCoverArt files buf aid).1 ∧
    CoverArtController.getCoverArt
        (AlbumController.addAlbumWithCover db files false inp download).db
        (AlbumController.addAlbumWithCover db files false inp download).files aid =
      .file buf (StorageService.getMimeType (StorageService.coverFileName buf aid)) := by
  have hpair : AlbumController.addAlbum db inp =
      (AlbumController.AddResp.created aid, (AlbumController.addAlbum db inp).2) := by
    rw [← h1]
  obtain ⟨r₀, hrow⟩ := addAlbum_created_row db inp aid h1
  have hred : AlbumController.addAlbumWithCover db files false inp download =
      { resp := .created aid,
        db := { (AlbumController.addAlbum db inp).2 with
          albums := updateCoverRow (AlbumController.addAlbum db inp).2.albums aid
            (StorageService.coverFileName buf aid) },
        files := StorageService.writeFile files (StorageService.coverFileName buf aid) buf,
        mbSearchInvoked := false, backgroundScheduled := false } := by
    unfold AlbumController.addAlbumWithCover
    rw [hpair]
    simp only [hurl, hdl]
    rfl
  rw [hred]
  refine ⟨rfl, rfl, rfl, rfl, ?_⟩
  have hfound := find_updateCoverRow (AlbumController.addAlbum db inp).2.albums aid
    (StorageService.coverFileName buf aid) r₀ hrow
  show (match (updateCoverRow (AlbumController.addAlbum db inp).2.albums aid
      (StorageService.coverFileName buf aid)).find? (fun r => r.id == aid) with
    | none => CoverArtController.CoverResp.albumMissing
    | some album =>
      match optStrTruthy album.localCoverPath with
      | some p =>
          if StorageService.fileExists
              (StorageService.writeFile files (StorageService.coverFileName buf aid) buf)
              p = true then
            CoverArtController.CoverResp.file
              (StorageService.readCoverArt
                (StorageService.writeFile files (StorageService.coverFileName buf aid) buf) p)
              (StorageService.getMimeType p)
          else CoverArtController.urlTier album
      | none => CoverArtController.urlTier album) =
    CoverArtController.CoverResp.file buf
      (StorageService.getMimeType (StorageService.coverFileName buf aid))
  rw [hfound]
  show (match optStrTruthy (some (StorageService.coverFileName buf aid)) with
    | some p =>
        if StorageService.fileExists
            (StorageService.writeFile files (StorageService.coverFileName buf aid) buf)
            p = true then
          CoverArtController.CoverResp.file
            (StorageService.readCoverArt
              (StorageService.writeFile files (StorageService.coverFileName buf aid) buf) p)
            (StorageService.getMimeType p)
        else CoverArtController.urlTier { r₀ with
          localCoverPath := some (StorageService.coverFileName buf aid),
          coverArtFetched := true }
    | none => CoverArtController.urlTier { r₀ with
        localCoverPath := some (StorageService.coverFileName buf aid),
        coverArtFetched := true }) =
    CoverArtController.CoverResp.file buf
      (StorageService.getMimeType (StorageService.coverFileName buf aid))
  rw [optStrTruthy_coverFileName]
  show (if StorageService.fileExists
      (StorageService.writeFile files (StorageService.coverFileName buf aid) buf)
      (StorageService.coverFileName buf aid) = true then
    CoverArtController.CoverResp.file
      (StorageService.readCoverArt
        (StorageService.writeFile files (StorageService.coverFileName buf aid) buf)
        (StorageService.coverFileName buf aid))
      (StorageService.getMimeType (StorageService.coverFileName buf aid))
    else CoverArtController.urlTier { r₀ with
      localCoverPath := some (StorageService.coverFileName buf aid),
      coverArtFetched := true }) =
    CoverArtController.CoverResp.file buf
      (StorageService.getMimeType (StorageService.coverFileName buf aid))
  rw [if_pos (fileExists_writeFile files (StorageService.coverFileName buf aid) buf)]
  rw [readCoverArt_writeFile files (StorageService.coverFileName buf aid) buf]

/-- C9 (witness): the end-to-end scenario of the specification — adding
Radiohead / OK Computer with a catalogue cover URL while the open-metadata
provider is disabled immediately persists the downloaded JPEG and the read
path serves it. -/
theorem claim_C9_witness :
    (AlbumController.addAlbumWithCover ⟨[], [], [], [], 1, 1⟩ []
      false ⟨"Radiohead", "OK Computer", none, some "http://catalogue/x.jpg", none, none⟩
      (fun _ => .ok [255, 216, 255, 42])).resp = .created 1 ∧
    (AlbumController.addAlbumWithCover ⟨[], [], [], [], 1, 1⟩ []
      false ⟨"Radiohead", "OK Computer", none, some "http://catalogue/x.jpg", none, none⟩
      (fun _ => .ok [255, 216, 255, 42])).mbSearchInvoked = false ∧
    (AlbumController.addAlbumWithCover ⟨[], [], [], [], 1, 1⟩ []
      false ⟨"Radiohead", "OK Computer", none, some "http://catalogue/x.jpg", none, none⟩
      (fun _ => .ok [255, 216, 255, 42])).backgroundScheduled = false ∧
    (AlbumController.addAlbumWithCover ⟨[], [], [], [], 1, 1⟩ []
      false ⟨"Radiohead", "OK Computer", none, some "http://catalogue/x.jpg", none, none⟩
      (fun _ => .ok [255, 216, 255, 42])).files =
      (StorageService.saveCoverArt [] [255, 216, 255, 42] 1).1 ∧
    CoverArtController.getCoverArt
        (AlbumController.addAlbumWithCover ⟨[], [], [], [], 1, 1⟩ []
          false ⟨"Radiohead", "OK Computer", none, some "http://catalogue/x.jpg", none, none⟩
          (fun _ => .ok [255, 216, 255, 42])).db
        (AlbumController.addAlbumWithCover ⟨[], [], [], [], 1, 1⟩ []
          false ⟨"Radiohead", "OK Computer", none, some "http://catalogue/x.jpg", none, none⟩
          (fun _ => .ok [255, 216, 255, 42])).files 1 =
      .file [255, 216, 255, 42]
        (StorageService.getMimeType (StorageService.coverFileName [255, 216, 255, 42] 1)) :=
  claim_C9 ⟨[], [], [], [], 1, 1⟩ []
    ⟨"Radiohead", "OK Computer", none, some "http://catalogue/x.jpg", none, none⟩
    (fun _ => .ok [255, 216, 255, 42]) "http://catalogue/x.jpg" [255, 216, 255, 42] 1
    (by rfl) (by rfl) (by decide)

/-! ## Theorems about the candidate merge engine (claim C5) -/

namespace SearchController

theorem mergeAux_cons_skip (colSet wlSet seen : List (List Char)) (item : Origin)
    (rest : List Origin) (h : item.key ∈ seen) :
    mergeAux colSet wlSet seen (item :: rest) = mergeAux colSet wlSet seen rest := by
  simp [mergeAux, h]

theorem mergeAux_cons_keep (colSet wlSet seen : List (List Char)) (item : Origin)
    (rest : List Origin) (h : item.key ∉ seen) :
    mergeAux colSet wlSet seen (item :: rest) =
      tagEntry colSet wlSet item :: mergeAux colSet wlSet (item.key :: seen) rest := by
  simp [mergeAux, h]

theorem dgMergeAux_cons_skip_id (si : List Nat) (sk : List (List Char))
    (item : DiscogsAlbum) (rest : List DiscogsAlbum) (h : item.id ∈ si) :
    dgMergeAux si sk (item :: rest) = dgMergeAux si sk rest := by
  simp [dgMergeAux, h]

theorem dgMergeAux_cons_skip_key (si : List Nat) (sk : List (List Char))
    (item : DiscogsAlbum) (rest : List DiscogsAlbum) (h1 : item.id ∉ si)
    (h2 : normKey item.artist item.album ∈ sk) :
    dgMergeAux si sk (item :: rest) = dgMergeAux si sk rest := by
  simp [dgMergeAux, h1, h2]

theorem dgMergeAux_cons_keep (si : List Nat) (sk : List (List Char))
    (item : DiscogsAlbum) (rest : List DiscogsAlbum) (h1 : item.id ∉ si)
    (h2 : normKey item.artist item.album ∉ sk) :
    dgMergeAux si sk (item :: rest) =
      item :: dgMergeAux (item.id :: si) (normKey item.artist item.album :: sk) rest := by
  simp [dgMergeAux, h1, h2]

theorem mergeAux_key_not_mem (colSet wlSet : List (List Char)) (l : List Origin) :
    ∀ (seen : List (List Char)), ∀ e ∈ mergeAux colSet wlSet seen l,
      e.origin.key ∉ seen := by
  induction l with
  | nil =>
      intro seen e he
      simp [mergeAux] at he
  | cons item rest ih =>
      intro seen e he
      by_cases h : item.key ∈ seen
      · rw [mergeAux_cons_skip colSet wlSet seen item rest h] at he
        exact ih seen e he
      · rw [mergeAux_cons_keep colSet wlSet seen item rest h] at he
        rcases List.mem_cons.mp he with he | he
        · subst he
          simpa [tagEntry] using h
        · have h2 := ih (item.key :: seen) e he
          intro hk
          exact h2 (by simp [hk])

theorem mergeAux_nodup_keys (colSet wlSet : List (List Char)) (l : List Origin) :
    ∀ (seen : List (List Char)),
      ((mergeAux colSet wlSet seen l).map (fun e => e.origin.key)).Nodup := by
  induction l with
  | nil =>
      intro seen
      simp [mergeAux]
  | cons item rest ih =>
      intro seen
      by_cases h : item.key ∈ seen
      · rw [mergeAux_cons_skip colSet wlSet seen item rest h]
        exact ih seen
      · rw [mergeAux_cons_keep colSet wlSet seen item rest h]
        simp only [List.map_cons, List.nodup_cons]
        constructor
        · intro hmem
          rcases List.mem_map.mp hmem with ⟨e, he, hkey⟩
          have hnot := mergeAux_key_not_mem colSet wlSet rest (item.key :: seen) e he
          apply hnot
          have he2 : e.origin.key = item.key := by simpa [tagEntry] using hkey
          simp [he2]
        · exact ih (item.key :: seen)

theorem mergeAux_sublist (colSet wlSet : List (List Char)) (l : List Origin) :
    ∀ (seen : List (List Char)),
      ((mergeAux colSet wlSet seen l).map (fun e => e.origin)).Sublist l := by
  induction l with
  | nil =>
      intro seen
      simp [mergeAux]
  | cons item rest ih =>
      intro seen
      by_cases h : item.key ∈ seen
      · rw [mergeAux_cons_skip colSet wlSet seen item rest h]
        exact (ih seen).cons item
      · rw [mergeAux_cons_keep colSet wlSet seen item rest h]
        simp only [List.map_cons]
        rw [show (tagEntry colSet wlSet item).origin = item from rfl]
        exact (ih (item.key :: seen)).cons₂ item

theorem mergeAux_firstSeen (colSet wlSet : List (List Char)) (l : List Origin) :
    ∀ (seen : List (List Char)) (k : List Char), k ∉ seen →
      ((mergeAux colSet wlSet seen l).find? (fun e => e.origin.key == k)).map
          (fun e => e.origin) =
        l.find? (fun o => o.key == k) := by
  induction l with
  | nil =>
      intro seen k hk
      simp [mergeAux, List.find?]
  | cons item rest ih =>
      intro seen k hk
      by_cases h : item.key ∈ seen
      · rw [mergeAux_cons_skip colSet wlSet seen item rest h]
        have hne : (item.key == k) = false := by
          rw [beq_eq_false_iff_ne]
          intro hEq
          rw [hEq] at h
          exact hk h
        rw [show (item :: rest).find? (fun o => o.key == k) =
            rest.find? (fun o => o.key == k) from by simp [List.find?, hne]]
        exact ih seen k hk
      · rw [mergeAux_cons_keep colSet wlSet seen item rest h]
        by_cases hek : (item.key == k) = true
        · rw [show (tagEntry colSet wlSet item ::
              mergeAux colSet wlSet (item.key :: seen) rest).find?
                (fun e => e.origin.key == k) = some (tagEntry colSet wlSet item)
              from by simp [List.find?, tagEntry, hek]]
          rw [show (item :: rest).find? (fun o => o.key == k) = some item
              from by simp [List.find?, hek]]
          rfl
        · have hk2 : k ∉ item.key :: seen := by
            intro hmem
            rcases List.mem_cons.mp hmem with heq | hmem
            · rw [heq] at hek
              simp at hek
            · exact hk hmem
          rw [show (tagEntry colSet wlSet item ::
              mergeAux colSet wlSet (item.key :: seen) rest).find?
                (fun e => e.origin.key == k) =
              (mergeAux colSet wlSet (item.key :: seen) rest).find?
                (fun e => e.origin.key == k)
              from by simp [List.find?, tagEntry, hek]]
          rw [show (item :: rest).find? (fun o => o.key == k) =
              rest.find? (fun o => o.key == k) from by simp [List.find?, hek]]
          exact ih (item.key :: seen) k hk2

theorem dgMergeAux_id_not_mem (l : List DiscogsAlbum) :
    ∀ (seenIds : List Nat) (seenKeys : List (List Char)),
      ∀ x ∈ dgMergeAux seenIds seenKeys l, x.id ∉ seenIds := by
  induction l with
  | nil =>
      intro si sk x hx
      simp [dgMergeAux] at hx
  | cons item rest ih =>
      intro si sk x hx
      by_cases h1 : item.id ∈ si
      · rw [dgMergeAux_cons_skip_id si sk item rest h1] at hx
        exact ih si sk x hx
      · by_cases h2 : normKey item.artist item.album ∈ sk
        · rw [dgMergeAux_cons_skip_key si sk item rest h1 h2] at hx
          exact ih si sk x hx
        · rw [dgMergeAux_cons_keep si sk item rest h1 h2] at hx
          rcases List.mem_cons.mp hx with hx | hx
          · subst hx
            exact h1
          · have h3 := ih (item.id :: si) (normKey item.artist item.album :: sk) x hx
            intro hmem
            exact h3 (by simp [hmem])

theorem dgMergeAux_key_not_mem (l : List DiscogsAlbum) :
    ∀ (seenIds : List Nat) (seenKeys : List (List Char)),
      ∀ x ∈ dgMergeAux seenIds seenKeys l,
        normKey x.artist x.album ∉ seenKeys := by
  induction l with
  | nil =>
      intro si sk x hx
      simp [dgMergeAux] at hx
  | cons item rest ih =>
      intro si sk x hx
      by_cases h1 : item.id ∈ si
      · rw [dgMergeAux_cons_skip_id si sk item rest h1] at hx
        exact ih si sk x hx
      · by_cases h2 : normKey item.artist item.album ∈ sk
        · rw [dgMergeAux_cons_skip_key si sk item rest h1 h2] at hx
          exact ih si sk x hx
        · rw [dgMergeAux_cons_keep si sk item rest h1 h2] at hx
          rcases List.mem_cons.mp hx with hx | hx
          · subst hx
            exact h2
          · have h3 := ih (item.id :: si) (normKey item.artist item.album :: sk) x hx
            intro hmem
            exact h3 (by simp [hmem])

theorem dgMergeAux_nodup_ids (l : List DiscogsAlbum) :
    ∀ (seenIds : List Nat) (seenKeys : List (List Char)),
      ((dgMergeAux seenIds seenKeys l).map (fun x => x.id)).Nodup := by
  induction l with
  | nil =>
      intro si sk
      simp [dgMergeAux]
  | cons item rest ih =>
      intro si sk
      by_cases h1 : item.id ∈ si
      · rw [dgMergeAux_cons_skip_id si sk item rest h1]
        exact ih si sk
      · by_cases h2 : normKey item.artist item.album ∈ sk
        · rw [dgMergeAux_cons_skip_key si sk item rest h1 h2]
          exact ih si sk
        · rw [dgMergeAux_cons_keep si sk item rest h1 h2]
          simp only [List.map_cons, List.nodup_cons]
          constructor
          · intro hmem
            rcases List.mem_map.mp hmem with ⟨x, hx, hid⟩
            have hnot := dgMergeAux_id_not_mem rest (item.id :: si)
              (normKey item.artist item.album :: sk) x hx
            exact hnot (by simp [hid])
          · exact ih (item.id :: si) (normKey item.artist item.album :: sk)

theorem dgMergeAux_nodup_keys (l : List DiscogsAlbum) :
    ∀ (seenIds : List Nat) (seenKeys : List (List Char)),
      ((dgMergeAux seenIds seenKeys l).map
        (fun x => normKey x.artist x.album)).Nodup := by
  induction l with
  | nil =>
      intro si sk
      simp [dgMergeAux]
  | cons item rest ih =>
      intro si sk
      by_cases h1 : item.id ∈ si
      · rw [dgMergeAux_cons_skip_id si sk item rest h1]
        exact ih si sk
      · by_cases h2 : normKey item.artist item.album ∈ sk
        · rw [dgMergeAux_cons_skip_key si sk item rest h1 h2]
          exact ih si sk
        · rw [dgMergeAux_cons_keep si sk item rest h1 h2]
          simp only [List.map_cons, List.nodup_cons]
          constructor
          · intro hmem
            rcases List.mem_map.mp hmem with ⟨x, hx, hkey⟩
            have hnot := dgMergeAux_key_not_mem rest (item.id :: si)
              (normKey item.artist item.album :: sk) x hx
            exact hnot (by simp [hkey])
          · exact ih (item.id :: si) (normKey item.artist item.album :: sk)

theorem dgMergeAux_sublist (l : List DiscogsAlbum) :
    ∀ (seenIds : List Nat) (seenKeys : List (List Char)),
      (dgMergeAux seenIds seenKeys l).Sublist l := by
  induction l with
  | nil =>
      intro si sk
      simp [dgMergeAux]
  | cons item rest ih =>
      intro si sk
      by_cases h1 : item.id ∈ si
      · rw [dgMergeAux_cons_skip_id si sk item rest h1]
        exact (ih si sk).cons item
      · by_cases h2 : normKey item.artist item.album ∈ sk
        · rw [dgMergeAux_cons_skip_key si sk item rest h1 h2]
          exact (ih si sk).cons item
        · rw [dgMergeAux_cons_keep si sk item rest h1 h2]
          exact (ih (item.id :: si) (normKey item.artist item.album :: sk)).cons₂ item

end SearchController

/-- C5 (counterexample): the claim that the merged output contains at most
one entry per external id is false: the final merge (`addFinal`)
deduplicates only by normalized `artist:album` key, so two open-metadata
candidates sharing the external id "X" but with different titles both
survive. -/
theorem claim_C5_counterexample :
    ((SearchController.finalMerged [] [] [⟨"X", "a", "b"⟩, ⟨"X", "a", "c"⟩] []).map
        (fun e => e.origin.extId)) =
      [Sum.inl "X", Sum.inl "X"] ∧
    ¬ ((SearchController.finalMerged [] [] [⟨"X", "a", "b"⟩, ⟨"X", "a", "c"⟩] []).map
        (fun e => e.origin.extId)).Nodup := by
  constructor
  · rfl
  · decide

/-- C5 (amended): the final merged output contains at most one entry per
normalized `artist::title` key; the first-seen candidate is kept and later
duplicates are silently dropped (the entry surviving for a key is exactly
the first candidate with that key in processing order); the surviving
candidates form a subsequence of the open-metadata candidates followed by
the catalogue candidates, so open-metadata candidates are ordered first.
Deduplication by external id happens only inside the catalogue provider's
own merge (`addUniqueDiscogs`), whose output has pairwise-distinct release
ids and pairwise-distinct normalized keys and is a subsequence of its two
input lists concatenated; the final merge does not deduplicate by external
id across providers. -/
theorem claim_C5_amended (colSet wlSet : List (List Char))
    (mbResults : List SearchController.MBAlbum)
    (discogsResults : List SearchController.DiscogsAlbum)
    (artistReleases generalResults : List SearchController.DiscogsAlbum) :
    ((SearchController.finalMerged colSet wlSet mbResults discogsResults).map
      (fun e => e.origin.key)).Nodup ∧
    ((SearchController.finalMerged colSet wlSet mbResults discogsResults).map
      (fun e => e.origin)).Sublist
        (mbResults.map SearchController.Origin.mb ++
          discogsResults.map SearchController.Origin.dg) ∧
    (∀ k : List Char,
      ((SearchController.finalMerged colSet wlSet mbResults discogsResults).find?
          (fun e => e.origin.key == k)).map (fun e => e.origin) =
        (mbResults.map SearchController.Origin.mb ++
          discogsResults.map SearchController.Origin.dg).find?
          (fun o => o.key == k)) ∧
    ((SearchController.mergedDiscogs artistReleases generalResults).map
      (fun x => x.id)).Nodup ∧
    ((SearchController.mergedDiscogs artistReleases generalResults).map
      (fun x => SearchController.normKey x.artist x.album)).Nodup ∧
    (SearchController.mergedDiscogs artistReleases generalResults).Sublist
      (artistReleases ++ generalResults) := by
  refine ⟨?_, ?_, ?_, ?_, ?_, ?_⟩
  · exact SearchController.mergeAux_nodup_keys colSet wlSet _ []
  · exact SearchController.mergeAux_sublist colSet wlSet _ []
  · intro k
    exact SearchController.mergeAux_firstSeen colSet wlSet _ [] k (by simp)
  · exact SearchController.dgMergeAux_nodup_ids _ [] []
  · exact SearchController.dgMergeAux_nodup_keys _ [] []
  · exact SearchController.dgMergeAux_sublist _ [] []

/-! ## Theorems about provider degradation without credentials (claim C4) -/

/-- C4 (counterexample): the claim "every client method of a provider with
no configured credentials returns an empty result rather than raising" is
false for the catalogue provider: with no `DISCOGS_TOKEN` the client has
no `Authorization` header, the provider rejects the database-search call
(an error outcome), and both `searchByBarcode` and `searchByQuery`
re-throw instead of returning `null`/`[]` (with an empty cache, as on a
first call). -/
theorem claim_C4_counterexample :
    DiscogsService.searchByBarcode none (.error ()) =
      .error "Failed to search Discogs by barcode" ∧
    DiscogsService.searchByQuery none (.error ()) =
      .error "Failed to search Discogs" := by
  exact ⟨rfl, rfl⟩

/-- C4 (amended): only the open-metadata provider degrades to empty: when
it is disabled, `searchRelease` and `searchArtist` return `null` whatever
the cache or call outcome would be.  The catalogue provider's barcode and
text searches do not degrade: whenever the underlying call fails (as it
does without credentials) and no cached value masks the failure, they
raise an error that propagates to the caller. -/
theorem claim_C4_amended :
    (∀ (cached : Option MusicBrainzService.MusicBrainzAlbum)
        (http : Except Unit (List MusicBrainzService.MBRawRelease)),
      MusicBrainzService.searchRelease false cached http = none) ∧
    (∀ (cached : Option (String × String))
        (http : Except Unit (List (String × String))),
      MusicBrainzService.searchArtist false cached http = none) ∧
    (∀ e : Unit, DiscogsService.searchByBarcode none (.error e) =
      .error "Failed to search Discogs by barcode") ∧
    (∀ e : Unit, DiscogsService.searchByQuery none (.error e) =
      .error "Failed to search Discogs") := by
  refine ⟨?_, ?_, ?_, ?_⟩
  · intro cached http
    rfl
  · intro cached http
    rfl
  · intro e
    rfl
  · intro e
    rfl
